import Mathlib

/-!
Verification of the EFsafari marketing-analytics backend.

Shallow embedding of the core query / ETL logic:
* `Shared.build_permission_filter`      — backend/api/shared/permissions.py
* `DailyReport.build_permission_filter` — backend/api/routers/daily_report.py
* `format_row_for_frontend`             — backend/api/database.py
* `merge_two_pass_data`                 — backend/clickflare_etl/cf_etl.py
* `Hourly.fetch_data_window`            — backend/api/routers/hourly.py
* `DailyReportSync.sync_data_from_performance` — backend/api/routers/daily_report.py
* `HourlyEtl.hourly_run_ops`            — backend/clickflare_etl/cf_hourly_etl.py
* `CfEtl.merge_mtg_data_to_cf`          — backend/clickflare_etl/cf_etl.py
* `Dashboard.fetch_hierarchy`           — backend/api/routers/dashboard.py

Counts are modelled as `ℕ` (ClickHouse UInt64 sums), money as `ℚ` (exact
stand-in for the Python floats / Decimals); dates and timestamps are `ℤ`.
-/

namespace EFsafari

/-- Python `x or 1` on a number: 1 when the value is zero, else the value. -/
def qz1 (x : ℚ) : ℚ := if x = 0 then 1 else x

/-- Python `n or 1` on a non-negative integer count (equals `max n 1`). -/
def nz1 (n : ℕ) : ℕ := if n = 0 then 1 else n

/-- SQL fragment `(lower(col) LIKE lower('%k1%') OR ...)` built by the three
permission-filter builders for a keyword list (the case-insensitive
contains-any filter on `column`). -/
def keywordLikeFilter (column : String) (keywords : List String) : String :=
  "(" ++ String.intercalate " OR "
    (keywords.map (fun k =>
      "lower(" ++ column ++ ") LIKE lower(\x27%" ++ k ++ "%\x27)")) ++ ")"

namespace Shared

/-- backend/api/shared/permissions.py, `build_permission_filter`. -/
def build_permission_filter (user_role : String) (user_keywords : List String) :
    Option String :=
  if user_role = "admin" ∨ user_keywords = [] then none
  else if user_role = "ops" then some (keywordLikeFilter "Adset" user_keywords)
  else if user_role = "ops02" then some (keywordLikeFilter "Media" user_keywords)
  else if user_role = "business" then some (keywordLikeFilter "offer" user_keywords)
  else none

end Shared

namespace DailyReport

/-- backend/api/routers/daily_report.py, `_build_permission_filter`:
only the `ops` role gets a filter (on the `Media` column); all other
non-admin roles fall through to `None`. -/
def build_permission_filter (user_role : String) (user_keywords : List String) :
    Option String :=
  if user_role = "admin" ∨ user_keywords = [] then none
  else if user_role = "ops" then some (keywordLikeFilter "Media" user_keywords)
  else none

end DailyReport

/-- Raw metric sums flowing out of a warehouse GROUP BY: integer counts and
exact money amounts, all already defaulted to 0 when the source field was
NULL (the `or 0` in `format_row_for_frontend`). -/
structure MetricTuple where
  impressions : ℕ
  clicks : ℕ
  conversions : ℕ
  spend : ℚ
  revenue : ℚ
  m_imp : ℕ
  m_clicks : ℕ
  m_conv : ℕ
  deriving DecidableEq

/-- The derived ratios computed by `format_row_for_frontend`. -/
structure DerivedMetrics where
  ctr : ℚ
  cvr : ℚ
  roi : ℚ
  cpa : ℚ
  rpa : ℚ
  epc : ℚ
  epv : ℚ
  m_epc : ℚ
  m_epv : ℚ
  m_cpc : ℚ
  m_cpv : ℚ
  deriving DecidableEq

/-- backend/api/database.py, `format_row_for_frontend` (metric part):
every denominator is Python `x or 1`. -/
def format_row_for_frontend (r : MetricTuple) : DerivedMetrics where
  ctr := (r.clicks : ℚ) / (nz1 r.impressions : ℚ)
  cvr := (r.conversions : ℚ) / (nz1 r.clicks : ℚ)
  roi := (r.revenue - r.spend) / qz1 r.spend
  cpa := r.spend / (nz1 r.conversions : ℚ)
  rpa := r.revenue / (nz1 r.conversions : ℚ)
  epc := r.revenue / (nz1 r.clicks : ℚ)
  epv := r.revenue / (nz1 r.impressions : ℚ)
  m_epc := r.revenue / (nz1 r.m_clicks : ℚ)
  m_epv := r.revenue / (nz1 r.m_imp : ℚ)
  m_cpc := r.spend / (nz1 r.m_clicks : ℚ)
  m_cpv := r.spend / (nz1 r.m_imp : ℚ)

/-- One Clickflare row as seen by the two-pass merge: the nine key fields and
the two landing fields may be absent from the raw dict (`None` here, the
code's `.get(..., "")` defaults them) and `payload` stands for the remaining
dict entries, untouched by the merge. -/
structure PassRow where
  date : Option String
  trafficSourceID : Option String
  offerID : Option String
  trackingField1 : Option String
  trackingField2 : Option String
  trackingField3 : Option String
  trackingField4 : Option String
  trackingField5 : Option String
  trackingField6 : Option String
  landingID : Option String
  landingName : Option String
  payload : List (String × String)
  deriving DecidableEq

/-- backend/clickflare_etl/cf_etl.py, `_make_merge_key`: the 9-field
pipe-joined composite key, empty string for missing fields. -/
def make_merge_key (row : PassRow) : String :=
  row.date.getD "" ++ "|" ++
  row.trafficSourceID.getD "" ++ "|" ++
  row.offerID.getD "" ++ "|" ++
  row.trackingField1.getD "" ++ "|" ++
  row.trackingField2.getD "" ++ "|" ++
  row.trackingField3.getD "" ++ "|" ++
  row.trackingField4.getD "" ++ "|" ++
  row.trackingField5.getD "" ++ "|" ++
  row.trackingField6.getD ""

/-- The `pass2_lookup` dict of `merge_two_pass_data`: first-match-wins
association from composite key to the pass-2 landing fields. -/
def pass2_lookup (pass2 : List PassRow) : List (String × String × String) :=
  pass2.foldl
    (fun acc row =>
      if (acc.lookup (make_merge_key row)).isSome then acc
      else acc ++ [(make_merge_key row,
                    row.landingID.getD "", row.landingName.getD "")])
    []

/-- backend/clickflare_etl/cf_etl.py, `merge_two_pass_data`. -/
def merge_two_pass_data (pass1 pass2 : List PassRow) : List PassRow :=
  if pass2 = [] then pass1
  else
    pass1.map (fun row =>
      match (pass2_lookup pass2).lookup (make_merge_key row) with
      | some (lid, lname) =>
          { row with landingID := some lid, landingName := some lname }
      | none => { row with landingID := some "", landingName := some "" })

namespace Hourly

/-- UTC query window of the /api/hourly/data endpoint, in seconds. -/
structure UtcWindow where
  utc_start : ℤ
  utc_end : ℤ
  deriving DecidableEq

/-- backend/api/routers/hourly.py, `TIMEZONE_OFFSETS.get(timezone, 0)`. -/
def TIMEZONE_OFFSETS (tz : String) : ℤ :=
  if tz = "UTC" then 0
  else if tz = "Asia/Shanghai" then 8
  else if tz = "EST" then -5
  else if tz = "PST" then -8
  else 0

/-- backend/api/routers/hourly.py, `fetch_data` lines 300-327: the UTC query
window computed from the selected target-timezone day.  Naive datetimes are
seconds; `target_day` is the calendar day number of the requested date, so
its naive midnight is `86400 * target_day`; `.date()` is floor division by
86400. -/
def fetch_data_window (target_day : ℤ) (tz_offset : ℤ) (utc_now : ℤ) :
    UtcWindow :=
  let target_date := 86400 * target_day
  let utc_start_dt := target_date + 3600 * tz_offset
  let utc_day_end := target_date + 86400 - 1 + 3600 * tz_offset
  let target_now := utc_now + 3600 * tz_offset
  let target_today := Int.fdiv target_now 86400
  let is_today := target_day = target_today
  { utc_start := utc_start_dt
    utc_end := if is_today then utc_now else utc_day_end }

/-- backend/api/routers/hourly.py line 335: rows are selected by full
timestamp comparison against the window. -/
def rowSelected (w : UtcWindow) (ts : ℤ) : Prop :=
  w.utc_start ≤ ts ∧ ts < w.utc_end

end Hourly

namespace DailyReportSync

/-- One stored row of `ad_platform.dwd_daily_report`; dates are day
numbers. -/
structure DailyRow where
  reportDate : ℤ
  media : String
  impressions : ℕ
  clicks : ℕ
  conversions : ℕ
  revenue : ℚ
  spend_original : ℚ
  spend_manual : ℚ
  spend_final : ℚ
  m_imp : ℕ
  m_clicks : ℕ
  m_conv : ℕ
  is_locked : Bool
  last_modified_by : String
  deriving DecidableEq

/-- One row of the source fact table `dwd_marketing_report_daily`. -/
structure SourceRow where
  reportDate : ℤ
  media : String
  impressions : ℕ
  clicks : ℕ
  conversions : ℕ
  revenue : ℚ
  spend : ℚ
  m_imp : ℕ
  m_clicks : ℕ
  m_conv : ℕ
  deriving DecidableEq

/-- Distinct (reportDate, Media) keys of the INSERT..SELECT GROUP BY. -/
def groupKeys (src : List SourceRow) : List (ℤ × String) :=
  src.foldl
    (fun acc s =>
      if (s.reportDate, s.media) ∈ acc then acc
      else acc ++ [(s.reportDate, s.media)]) []

/-- The aggregated row the sync INSERT produces for one (date, media) key:
`spend_original = spend_final = sum(spend)`, `spend_manual = 0`,
`is_locked = 0`. -/
def aggRow (src : List SourceRow) (username : String) (k : ℤ × String) :
    DailyRow :=
  let g := src.filter (fun s => s.reportDate == k.1 && s.media == k.2)
  { reportDate := k.1
    media := k.2
    impressions := (g.map (fun s => s.impressions)).sum
    clicks := (g.map (fun s => s.clicks)).sum
    conversions := (g.map (fun s => s.conversions)).sum
    revenue := (g.map (fun s => s.revenue)).sum
    spend_original := (g.map (fun s => s.spend)).sum
    spend_manual := 0
    spend_final := (g.map (fun s => s.spend)).sum
    m_imp := (g.map (fun s => s.m_imp)).sum
    m_clicks := (g.map (fun s => s.m_clicks)).sum
    m_conv := (g.map (fun s => s.m_conv)).sum
    is_locked := false
    last_modified_by := username }

/-- backend/api/routers/daily_report.py, `sync_data_from_performance`
(lines 766-804): first DELETE the unlocked rows in range, then INSERT the
per-(date, media) aggregation of the source table over the same range —
with no lock exclusion on the INSERT side. -/
def sync_data_from_performance (table : List DailyRow)
    (src : List SourceRow) (start_d end_d : ℤ) (username : String) :
    List DailyRow :=
  let remaining := table.filter
    (fun r => !(decide (start_d ≤ r.reportDate) &&
                decide (r.reportDate ≤ end_d) && !r.is_locked))
  let srcInRange := src.filter
    (fun s => decide (start_d ≤ s.reportDate) && decide (s.reportDate ≤ end_d))
  remaining ++ (groupKeys srcInRange).map (aggRow srcInRange username)

end DailyReportSync

namespace HourlyEtl

/-- One stored row of the hourly table, as the retention delete sees it. -/
structure HRow where
  reportDate : ℤ
  reportHour : ℕ
  timezone : String
  payload : List (String × String)
  deriving DecidableEq

/-- A table-mutating ClickHouse command issued by the hourly ETL. -/
inductive DbOp : Type where
  | deleteRange (start_ts end_ts : ℤ)
  | insertRows (rows : List HRow)
  deriving DecidableEq

/-- Effect of one command on the stored table: the range delete removes the
UTC rows whose reportDate+reportHour timestamp falls in [start, end); the
insert appends. -/
def applyOp (table : List HRow) : DbOp → List HRow
  | DbOp.deleteRange s e =>
      table.filter (fun r =>
        !(r.timezone == "UTC" &&
          decide (s ≤ 86400 * r.reportDate + 3600 * (r.reportHour : ℤ)) &&
          decide (86400 * r.reportDate + 3600 * (r.reportHour : ℤ) < e)))
  | DbOp.insertRows rows => table ++ rows

def applyOps (table : List HRow) (ops : List DbOp) : List HRow :=
  ops.foldl applyOp table

/-- backend/clickflare_etl/cf_hourly_etl.py, `HourlyETL.run` (lines
449-471), as the trace of table-mutating commands it issues: step 1 fetches
(re-raising any API error before anything else happens), step 2 transforms,
step 3 deletes the timestamp range, step 4 inserts.  `RawItem` rows come
from the upstream API; `transform` abstracts `_transform_data`. -/
def hourly_run_ops {RawItem : Type}
    (fetchResult : Except String (List RawItem))
    (transform : List RawItem → List HRow)
    (start_ts end_ts : ℤ) : Except String (List DbOp) :=
  match fetchResult with
  | Except.error e => Except.error e
  | Except.ok raw =>
      Except.ok [DbOp.deleteRange start_ts end_ts,
                 DbOp.insertRows (transform raw)]

/-- The table state once the run finishes: a raised error aborts before any
command is executed, a successful run applies the issued commands. -/
def tableAfter (table : List HRow) : Except String (List DbOp) → List HRow
  | Except.error _ => table
  | Except.ok ops => applyOps table ops

end HourlyEtl

namespace CfEtl

/-- Python `int(round(x))` on an exact value: round half to even. -/
def pyRound (q : ℚ) : ℤ :=
  if Int.fract q < 1/2 then ⌊q⌋
  else if 1/2 < Int.fract q then ⌊q⌋ + 1
  else if ⌊q⌋ % 2 = 0 then ⌊q⌋ else ⌊q⌋ + 1

/-- backend/clickflare_etl/cf_etl.py, `_is_special_media`: case-insensitive
substring match of any configured MTG media keyword (Python
`keyword.lower() in media_name.lower()`, lowercasing done per character). -/
def is_special_media (keywords : List String) (media_name : String) : Bool :=
  !(media_name == "") &&
    keywords.any (fun k =>
      decide (k.data.map Char.toLower <:+: media_name.data.map Char.toLower))

/-- One transformed MTG row (output of `transform_mtg_row`). -/
structure MtgRow where
  AdsetID : String
  CampaignID : String
  Adset : String
  AdsID : String
  Ads : String
  spend : ℚ
  m_imp : ℤ
  m_clicks : ℤ
  m_conv : ℤ
  deriving DecidableEq

/-- Aggregated MTG value per AdsetID (`mtg_by_adset` dict value). -/
structure MtgAgg where
  spend : ℚ
  m_imp : ℤ
  m_clicks : ℤ
  m_conv : ℤ
  CampaignID : String
  Adset : String
  AdsID : String
  Ads : String
  deriving DecidableEq

/-- One transformed Clickflare row entering `_merge_mtg_data_to_cf`. -/
structure CfRow where
  reportDate : Option String
  dataSource : String
  Media : String
  MediaID : String
  offer : String
  offerID : String
  advertiser : String
  advertiserID : String
  lander : String
  landerID : String
  Campaign : String
  CampaignID : String
  Adset : String
  AdsetID : String
  Ads : String
  AdsID : String
  impressions : ℕ
  clicks : ℕ
  conversions : ℕ
  revenue : ℚ
  spend : ℚ
  m_imp : ℤ
  m_clicks : ℤ
  m_conv : ℤ
  deriving DecidableEq

/-- Zero aggregate seeded with the first seen row's campaign fields. -/
def mtg_agg_init (r : MtgRow) : MtgAgg :=
  { spend := 0, m_imp := 0, m_clicks := 0, m_conv := 0,
    CampaignID := r.CampaignID, Adset := r.Adset,
    AdsID := r.AdsID, Ads := r.Ads }

def mtg_agg_add (a : MtgAgg) (r : MtgRow) : MtgAgg :=
  { a with spend := a.spend + r.spend, m_imp := a.m_imp + r.m_imp,
           m_clicks := a.m_clicks + r.m_clicks, m_conv := a.m_conv + r.m_conv }

/-- Step 1 of `_merge_mtg_data_to_cf`: aggregate MTG rows by AdsetID in
first-appearance order, skipping empty / "0" ids. -/
def mtg_by_adset (mtg : List MtgRow) : List (String × MtgAgg) :=
  mtg.foldl
    (fun acc r =>
      if r.AdsetID = "" ∨ r.AdsetID = "0" then acc
      else
        match acc.lookup r.AdsetID with
        | some _ =>
            acc.map (fun e =>
              if e.1 = r.AdsetID then (e.1, mtg_agg_add e.2 r) else e)
        | none => acc ++ [(r.AdsetID, mtg_agg_add (mtg_agg_init r) r)])
    []

/-- The `special_cf_rows` of one AdsetID group: matching CF rows whose media
is MTG-eligible. -/
def special_rows_for (keywords : List String) (cf : List CfRow) (k : String) :
    List CfRow :=
  cf.filter (fun r => r.AdsetID == k && is_special_media keywords r.Media)

/-- Step 3 update of one eligible CF row: overwrite spend and the three
mobile counters with the row's share of the aggregate — even split when the
group's CF impressions total zero, else proportional by impressions. -/
def allocate_cf_row (a : MtgAgg) (group : List CfRow) (r : CfRow) : CfRow :=
  let total : ℕ := (group.map (fun x => x.impressions)).sum
  if total = 0 then
    let count : ℕ := group.length
    { r with
        spend := a.spend / (count : ℚ)
        m_imp := if 0 < count then pyRound ((a.m_imp : ℚ) / (count : ℚ)) else 0
        m_clicks :=
          if 0 < count then pyRound ((a.m_clicks : ℚ) / (count : ℚ)) else 0
        m_conv :=
          if 0 < count then pyRound ((a.m_conv : ℚ) / (count : ℚ)) else 0 }
  else
    let ratio := (r.impressions : ℚ) / (total : ℚ)
    { r with
        spend := a.spend * ratio
        m_imp := pyRound ((a.m_imp : ℚ) * ratio)
        m_clicks := pyRound ((a.m_clicks : ℚ) * ratio)
        m_conv := pyRound ((a.m_conv : ℚ) * ratio) }

/-- The MTG-only row synthesized for an AdsetID with no CF match. -/
def mtg_new_row (report_date : Option String) (k : String) (a : MtgAgg) :
    CfRow :=
  { reportDate := report_date, dataSource := "MTG", Media := "Mintegral",
    MediaID := "", offer := "", offerID := "", advertiser := "",
    advertiserID := "", lander := "", landerID := "", Campaign := "",
    CampaignID := a.CampaignID, Adset := a.Adset, AdsetID := k,
    Ads := a.Ads, AdsID := a.AdsID, impressions := 0, clicks := 0,
    conversions := 0, revenue := 0, spend := a.spend, m_imp := a.m_imp,
    m_clicks := a.m_clicks, m_conv := a.m_conv }

/-- backend/clickflare_etl/cf_etl.py, `_merge_mtg_data_to_cf`: aggregate the
MTG rows by AdsetID; for each aggregated id with matching CF rows overwrite
the eligible (special-media) rows with their allocated share, leaving other
rows untouched and skipping the id when no matching row is eligible; for an
id with no matching CF row append a synthesized MTG-only row. -/
def merge_mtg_data_to_cf (keywords : List String) (cf_data : List CfRow)
    (mtg_data : List MtgRow) : List CfRow :=
  if mtg_data = [] then cf_data
  else
    let agg := mtg_by_adset mtg_data
    let report_date : Option String :=
      match cf_data.head? with
      | some r => r.reportDate
      | none => none
    let updated := cf_data.map (fun r =>
      match agg.lookup r.AdsetID with
      | some a =>
          if is_special_media keywords r.Media then
            allocate_cf_row a (special_rows_for keywords cf_data r.AdsetID) r
          else r
      | none => r)
    let new_rows := agg.filterMap (fun p =>
      if cf_data.any (fun r => r.AdsetID == p.1) then none
      else some (mtg_new_row report_date p.1 p.2))
    updated ++ new_rows

def spendSum (l : List CfRow) : ℚ := (l.map (fun r => r.spend)).sum

def mImpSum (l : List CfRow) : ℚ := (l.map (fun r => (r.m_imp : ℚ))).sum

def mClicksSum (l : List CfRow) : ℚ := (l.map (fun r => (r.m_clicks : ℚ))).sum

def mConvSum (l : List CfRow) : ℚ := (l.map (fun r => (r.m_conv : ℚ))).sum

end CfEtl

namespace Dashboard

/-- backend/api/models/schemas.py, `DIMENSION_COLUMN_MAP.get(d, d)`. -/
def DIMENSION_COLUMN_MAP (d : String) : String :=
  if d = "platform" then "Media"
  else if d = "advertiser" then "advertiser"
  else if d = "offer" then "offer"
  else if d = "lander" then "lander"
  else if d = "campaign_name" then "Campaign"
  else if d = "sub_campaign_name" then "Adset"
  else if d = "creative_name" then "Ads"
  else if d = "date" then "reportDate"
  else d

/-- One flat grouped row of the hierarchy query result: the dimension-column
cells (`none` = SQL NULL, a missing column behaves like NULL through
`row.get(col, "Unknown")`) plus the summed metric columns. -/
structure FlatRow where
  columns : List (String × Option String)
  impressions : ℕ
  clicks : ℕ
  conversions : ℕ
  spend : ℚ
  revenue : ℚ
  m_imp : ℕ
  m_clicks : ℕ
  m_conv : ℕ
  deriving DecidableEq

/-- dashboard.py lines 699-702: the node key for one dimension of one row —
null or empty cell values become the literal "Unknown". -/
def rowDimValue (r : FlatRow) (dim : String) : String :=
  match r.columns.lookup (DIMENSION_COLUMN_MAP dim) with
  | some (some v) => if v = "" then "Unknown" else v
  | some none => "Unknown"
  | none => "Unknown"

/-- The full dimension-value path of a row for an ordered dimension list. -/
def rowPath (dims : List String) (r : FlatRow) : List String :=
  dims.map (rowDimValue r)

/-- The `_metrics` dict stored at every hierarchy node. -/
structure NodeMetrics where
  impressions : ℕ
  clicks : ℕ
  conversions : ℕ
  spend : ℚ
  revenue : ℚ
  profit : ℚ
  m_imp : ℕ
  m_clicks : ℕ
  m_conv : ℕ
  ctr : ℚ
  cvr : ℚ
  roi : ℚ
  cpa : ℚ
  deriving DecidableEq

/-- dashboard.py lines 711-726: the `_metrics` of a freshly created node —
ratios straight from the row, roi = profit/spend only when spend > 0 else
0. -/
def initMetrics (r : FlatRow) : NodeMetrics :=
  { impressions := r.impressions, clicks := r.clicks,
    conversions := r.conversions, spend := r.spend, revenue := r.revenue,
    profit := r.revenue - r.spend, m_imp := r.m_imp, m_clicks := r.m_clicks,
    m_conv := r.m_conv,
    ctr := (r.clicks : ℚ) / (nz1 r.impressions : ℚ),
    cvr := (r.conversions : ℚ) / (nz1 r.clicks : ℚ),
    roi := if 0 < r.spend then (r.revenue - r.spend) / r.spend else 0,
    cpa := r.spend / (nz1 r.conversions : ℚ) }

/-- dashboard.py lines 742-762: accumulate one more row into an existing
node, then recompute the ratios from the updated sums (note lines 754-756:
the ctr / cvr numerators are also floored to 1 here). -/
def accumMetrics (e : NodeMetrics) (r : FlatRow) : NodeMetrics :=
  let impressions := e.impressions + r.impressions
  let clicks := e.clicks + r.clicks
  let conversions := e.conversions + r.conversions
  let spend := e.spend + r.spend
  let revenue := e.revenue + r.revenue
  { impressions := impressions, clicks := clicks, conversions := conversions,
    spend := spend, revenue := revenue, profit := revenue - spend,
    m_imp := e.m_imp + r.m_imp, m_clicks := e.m_clicks + r.m_clicks,
    m_conv := e.m_conv + r.m_conv,
    ctr := (nz1 clicks : ℚ) / (nz1 impressions : ℚ),
    cvr := (nz1 conversions : ℚ) / (nz1 clicks : ℚ),
    roi := if 0 < spend then (revenue - spend) / spend else 0,
    cpa := spend / (nz1 conversions : ℚ) }

/-- The hierarchy, flattened: the node of the nested dict reached by the key
path `p` is the entry with key `p` (the nested-dict structure is recovered
from the prefix relation between key paths). -/
abbrev HMap := List (List String × NodeMetrics)

/-- One `level_key` visit of the row loop: create the node with the row's
metrics, or accumulate into the existing node. -/
def updateAt (h : HMap) (p : List String) (r : FlatRow) : HMap :=
  if (h.lookup p).isSome then
    h.map (fun e => if e.1 = p then (e.1, accumMetrics e.2 r) else e)
  else h ++ [(p, initMetrics r)]

/-- The `for i, dim in enumerate(dim_list)` walk for one row: visit the
path prefixes of length 1, 2, ..., n in order. -/
def insertPaths (h : HMap) (path : List String) (r : FlatRow) : ℕ → HMap
  | 0 => h
  | n + 1 => updateAt (insertPaths h path r n) (path.take (n + 1)) r

def insertRow (dims : List String) (h : HMap) (r : FlatRow) : HMap :=
  insertPaths h (rowPath dims r) r dims.length

/-- backend/api/routers/dashboard.py, `fetch_hierarchy` (lines 687-766):
fold every grouped row into the nested hierarchy. -/
def fetch_hierarchy (rows : List FlatRow) (dims : List String) : HMap :=
  rows.foldl (insertRow dims) []

/-- Metrics of the node that absorbed exactly the rows `r :: rest`, in
order. -/
def nodeFold (r : FlatRow) (rest : List FlatRow) : NodeMetrics :=
  rest.foldl accumMetrics (initMetrics r)

/-- The top-level nodes of the hierarchy (depth-1 key paths). -/
def topNodes (h : HMap) : List NodeMetrics :=
  (h.filter (fun e => e.1.length == 1)).map (fun e => e.2)

end Dashboard

section Theorems

theorem nz1_cast_eq_max (n : ℕ) : ((nz1 n : ℕ) : ℚ) = max (n : ℚ) 1 := by
  unfold nz1
  rcases Nat.eq_zero_or_pos n with h | h
  · subst h; simp
  · have h1 : (1 : ℚ) ≤ (n : ℚ) := by exact_mod_cast h
    rw [if_neg (Nat.pos_iff_ne_zero.mp h), max_eq_left h1]

/-- C8: for every (role, keywords) pair, `build_permission_filter` returns
`None` iff the role is `admin`, the keyword list is empty, or the role lies
outside the set ops / ops02 / business; otherwise it returns the
case-insensitive contains-any keyword filter on the `Adset` column for role
`ops`, on the `Media` column for `ops02`, and on the `offer` column for
`business`. -/
theorem c8_permission_predicate (role : String) (keywords : List String) :
    (Shared.build_permission_filter role keywords = none ↔
      role = "admin" ∨ keywords = [] ∨
        (role ≠ "ops" ∧ role ≠ "ops02" ∧ role ≠ "business")) ∧
    (keywords ≠ [] → role ≠ "admin" →
      (role = "ops" →
        Shared.build_permission_filter role keywords =
          some (keywordLikeFilter "Adset" keywords)) ∧
      (role = "ops02" →
        Shared.build_permission_filter role keywords =
          some (keywordLikeFilter "Media" keywords)) ∧
      (role = "business" →
        Shared.build_permission_filter role keywords =
          some (keywordLikeFilter "offer" keywords))) := by
  unfold Shared.build_permission_filter
  by_cases ha : role = "admin" ∨ keywords = []
  · simp only [if_pos ha]
    constructor
    · simpa using Or.imp id Or.inl ha
    · intro hk hr
      rcases ha with ha | ha
      · exact absurd ha hr
      · exact absurd ha hk
  · simp only [if_neg ha]
    push_neg at ha
    obtain ⟨hr, hk⟩ := ha
    by_cases h1 : role = "ops"
    · simp [h1, hr, hk]
    · by_cases h2 : role = "ops02"
      · simp [h1, h2, hr, hk]
      · by_cases h3 : role = "business"
        · simp [h1, h2, h3, hr, hk]
        · simp [h1, h2, h3, hr, hk]

theorem c8_permission_predicate_witness :
    Shared.build_permission_filter "ops" ["x"] =
      some (keywordLikeFilter "Adset" ["x"]) ∧
    Shared.build_permission_filter "other" ["x"] = none :=
  ⟨((c8_permission_predicate "ops" ["x"]).2 (by simp) (by simp)).1 rfl,
   (c8_permission_predicate "other" ["x"]).1.mpr (by simp)⟩

/-- C10: in the daily-report router, for every non-empty keyword list the
permission filter for role `ops` restricts by the `Media` column (whereas the
shared builder used by the other report families filters `ops` on `Adset`),
and for roles `ops02` and `business` the daily-report builder returns `None`,
so those two roles run unrestricted there. -/
theorem c10_daily_report_permission_divergence
    (keywords : List String) (h : keywords ≠ []) :
    DailyReport.build_permission_filter "ops" keywords =
      some (keywordLikeFilter "Media" keywords) ∧
    Shared.build_permission_filter "ops" keywords =
      some (keywordLikeFilter "Adset" keywords) ∧
    DailyReport.build_permission_filter "ops02" keywords = none ∧
    DailyReport.build_permission_filter "business" keywords = none := by
  refine ⟨?_, ?_, ?_, ?_⟩ <;>
    simp [DailyReport.build_permission_filter, Shared.build_permission_filter, h]

theorem c10_daily_report_permission_divergence_witness :
    DailyReport.build_permission_filter "ops" ["x"] =
      some (keywordLikeFilter "Media" ["x"]) ∧
    DailyReport.build_permission_filter "ops02" ["x"] = none :=
  ⟨(c10_daily_report_permission_divergence ["x"] (by simp)).1,
   (c10_daily_report_permission_divergence ["x"] (by simp)).2.2.1⟩

/-- C5 counterexample: for the tuple with spend = 1/2 and revenue = 2 (all
fields non-negative), the row formatter divides the roi numerator by the
spend itself (1/2), not by max(spend, 1) = 1, so roi = 3 rather than the
claimed 3/2. -/
theorem c5_counterexample :
    (format_row_for_frontend ⟨0, 0, 0, (1 : ℚ)/2, 2, 0, 0, 0⟩).roi ≠
      ((⟨0, 0, 0, (1 : ℚ)/2, 2, 0, 0, 0⟩ : MetricTuple).revenue -
        (⟨0, 0, 0, (1 : ℚ)/2, 2, 0, 0, 0⟩ : MetricTuple).spend) /
        max (⟨0, 0, 0, (1 : ℚ)/2, 2, 0, 0, 0⟩ : MetricTuple).spend 1 := by
  simp only [format_row_for_frontend, qz1]
  norm_num

/-- C5 (amended): for every MetricTuple with non-negative fields, the row
formatter computes every integer-denominator ratio by the
treat-zero-denominator-as-1 rule (ctr = clicks / max(impressions, 1), cvr,
cpa, rpa, epc, epv and the mobile variants likewise), while roi divides
profit by the spend itself when it is non-zero and by 1 only when spend is
exactly zero; no ratio ever divides by true zero. -/
theorem c5_metric_deriver_amended (r : MetricTuple)
    (hs : 0 ≤ r.spend) (hr : 0 ≤ r.revenue) :
    (format_row_for_frontend r).ctr = (r.clicks : ℚ) / max (r.impressions : ℚ) 1 ∧
    (format_row_for_frontend r).cvr = (r.conversions : ℚ) / max (r.clicks : ℚ) 1 ∧
    (format_row_for_frontend r).roi =
      (r.revenue - r.spend) / (if r.spend = 0 then 1 else r.spend) ∧
    (format_row_for_frontend r).cpa = r.spend / max (r.conversions : ℚ) 1 ∧
    (format_row_for_frontend r).rpa = r.revenue / max (r.conversions : ℚ) 1 ∧
    (format_row_for_frontend r).epc = r.revenue / max (r.clicks : ℚ) 1 ∧
    (format_row_for_frontend r).epv = r.revenue / max (r.impressions : ℚ) 1 ∧
    (format_row_for_frontend r).m_epc = r.revenue / max (r.m_clicks : ℚ) 1 ∧
    (format_row_for_frontend r).m_epv = r.revenue / max (r.m_imp : ℚ) 1 ∧
    (format_row_for_frontend r).m_cpc = r.spend / max (r.m_clicks : ℚ) 1 ∧
    (format_row_for_frontend r).m_cpv = r.spend / max (r.m_imp : ℚ) 1 := by
  refine ⟨?_, ?_, ?_, ?_, ?_, ?_, ?_, ?_, ?_, ?_, ?_⟩ <;>
    simp [format_row_for_frontend, nz1_cast_eq_max, qz1]

theorem c5_metric_deriver_amended_witness :
    (0 : ℚ) ≤ 50 ∧ (0 : ℚ) ≤ 80 ∧
    (format_row_for_frontend ⟨100, 10, 1, 50, 80, 0, 0, 0⟩).roi =
      ((80 : ℚ) - 50) / (if (50 : ℚ) = 0 then 1 else 50) :=
  ⟨by norm_num, by norm_num,
    (c5_metric_deriver_amended ⟨100, 10, 1, 50, 80, 0, 0, 0⟩
      (by norm_num) (by norm_num)).2.2.1⟩

theorem lookup_append {α β : Type} [BEq α] (l₁ l₂ : List (α × β)) (k : α) :
    (l₁ ++ l₂).lookup k =
      match l₁.lookup k with
      | some v => some v
      | none => l₂.lookup k := by
  induction l₁ with
  | nil => simp [List.lookup]
  | cons e rest ih =>
      obtain ⟨k', v'⟩ := e
      cases h : (k == k') <;> simp [List.lookup, h, ih]

theorem pass2_lookup_aux (pass2 : List PassRow)
    (acc : List (String × String × String)) (k : String) :
    (pass2.foldl
      (fun acc row =>
        if (acc.lookup (make_merge_key row)).isSome then acc
        else acc ++ [(make_merge_key row,
                      row.landingID.getD "", row.landingName.getD "")])
      acc).lookup k =
    match acc.lookup k with
    | some v => some v
    | none =>
        (pass2.find? (fun q => make_merge_key q == k)).map
          (fun q => (q.landingID.getD "", q.landingName.getD "")) := by
  induction pass2 generalizing acc with
  | nil =>
      cases h : acc.lookup k with
      | none => simp [h]
      | some v => simp [h]
  | cons r rest ih =>
      simp only [List.foldl_cons, List.find?_cons]
      by_cases hk : make_merge_key r = k
      · have hb : (make_merge_key r == k) = true := by simpa using hk
        by_cases hin : (acc.lookup (make_merge_key r)).isSome
        · rw [if_pos hin, ih]
          obtain ⟨v, hv⟩ := Option.isSome_iff_exists.mp hin
          rw [hk] at hv
          simp [hv, hb]
        · rw [if_neg hin, ih, lookup_append]
          have hnone : acc.lookup (make_merge_key r) = none :=
            Option.not_isSome_iff_eq_none.mp hin
          rw [hk] at hnone
          have hb2 : (k == make_merge_key r) = true := by simpa using hk.symm
          simp [hnone, List.lookup, hb2, hb]
      · have hb : (make_merge_key r == k) = false := by simpa using hk
        have hb2 : (k == make_merge_key r) = false := by
          simpa using fun h => hk h.symm
        by_cases hin : (acc.lookup (make_merge_key r)).isSome
        · rw [if_pos hin, ih]
          simp [hb]
        · rw [if_neg hin, ih, lookup_append]
          cases h : acc.lookup k with
          | none => simp [h, List.lookup, hb2, hb]
          | some v => simp [h, hb]

/-- C7: `merge_two_pass_data` returns the pass-1 rows where each row's
landing fields equal those of the first pass-2 row whose 9-field composite
key equals the pass-1 row's key (defaulting missing pass-2 fields to the
empty string), or the empty string on both fields when no pass-2 row
matches; when pass 2 is empty the result is pass 1 unchanged, and the merge
is total (never errors). -/
theorem c7_two_pass_merger (pass1 pass2 : List PassRow) :
    merge_two_pass_data pass1 pass2 =
      if pass2 = [] then pass1
      else pass1.map (fun row =>
        match pass2.find? (fun q => make_merge_key q == make_merge_key row) with
        | some q =>
            { row with landingID := some (q.landingID.getD ""),
                       landingName := some (q.landingName.getD "") }
        | none => { row with landingID := some "", landingName := some "" }) := by
  unfold merge_two_pass_data
  by_cases h2 : pass2 = []
  · simp [h2]
  · rw [if_neg h2, if_neg h2]
    apply List.map_congr_left
    intro row _
    have := pass2_lookup_aux pass2 [] (make_merge_key row)
    unfold pass2_lookup
    rw [this]
    simp only [List.lookup]
    cases hf : pass2.find? (fun q => make_merge_key q == make_merge_key row) <;>
      simp [hf]

/-- C4 divergence witness: for timezone Asia/Shanghai (offset +8) and a past
target day D, the endpoint's window starts at D 00:00 naive plus 8 hours of
UTC time and ends at the following naive midnight minus one second plus 8
hours, i.e. the offset is added where the claim (and the code's own comment
examples at lines 295-297) subtract it: the correct start D 00:00 − 8h is 16
hours earlier. -/
theorem c4_hourly_window_sign_bug :
    (Hourly.fetch_data_window 20468 (Hourly.TIMEZONE_OFFSETS "Asia/Shanghai")
        (86400 * 20470)).utc_start = 86400 * 20468 + 8 * 3600 ∧
    (Hourly.fetch_data_window 20468 (Hourly.TIMEZONE_OFFSETS "Asia/Shanghai")
        (86400 * 20470)).utc_end = 86400 * 20468 + 86400 - 1 + 8 * 3600 ∧
    (86400 * 20468 + 8 * 3600 : ℤ) ≠ 86400 * 20468 - 8 * 3600 := by
  refine ⟨?_, ?_, by decide⟩ <;>
    simp [Hourly.fetch_data_window, Hourly.TIMEZONE_OFFSETS]

/-- C3 divergence witness: with a single locked row for (day 1, "Google")
and fresh source data for that same day, running the sync over a range
containing day 1 keeps the locked row but also inserts a brand-new unlocked
row for the same (date, media), so the stored data for the locked pair does
change (the claim requires it untouched; the delete respects the lock but
the insert does not). -/
theorem c3_locked_sync_adds_row :
    (DailyReportSync.sync_data_from_performance
        [{ reportDate := 1, media := "Google", impressions := 100,
           clicks := 10, conversions := 1, revenue := 80,
           spend_original := 100, spend_manual := 20, spend_final := 120,
           m_imp := 0, m_clicks := 0, m_conv := 0, is_locked := true,
           last_modified_by := "ops" }]
        [{ reportDate := 1, media := "Google", impressions := 100,
           clicks := 10, conversions := 1, revenue := 80, spend := 50,
           m_imp := 0, m_clicks := 0, m_conv := 0 }]
        1 1 "admin").length = 2 ∧
    (DailyReportSync.sync_data_from_performance
        [{ reportDate := 1, media := "Google", impressions := 100,
           clicks := 10, conversions := 1, revenue := 80,
           spend_original := 100, spend_manual := 20, spend_final := 120,
           m_imp := 0, m_clicks := 0, m_conv := 0, is_locked := true,
           last_modified_by := "ops" }]
        [{ reportDate := 1, media := "Google", impressions := 100,
           clicks := 10, conversions := 1, revenue := 80, spend := 50,
           m_imp := 0, m_clicks := 0, m_conv := 0 }]
        1 1 "admin").map
      (fun r => (r.reportDate, r.media, r.is_locked, r.spend_final)) =
      [(1, "Google", true, 120), (1, "Google", false, 50)] := by
  refine ⟨by decide, ?_⟩
  simp [DailyReportSync.sync_data_from_performance, DailyReportSync.groupKeys,
        DailyReportSync.aggRow, List.filter]

/-- C9: in the hourly ETL refresh, the range delete and bulk insert are
issued only after the upstream fetch succeeded — a failing fetch aborts the
run with an error, no command is issued and the hourly table is unchanged;
a successful fetch issues exactly the delete followed by the insert of the
transformed rows. -/
theorem c9_hourly_fetch_before_delete {RawItem : Type} (e : String)
    (transform : List RawItem → List HourlyEtl.HRow) (start_ts end_ts : ℤ)
    (table : List HourlyEtl.HRow) :
    HourlyEtl.hourly_run_ops (Except.error e) transform start_ts end_ts =
      Except.error e ∧
    HourlyEtl.tableAfter table
      (HourlyEtl.hourly_run_ops (Except.error e) transform start_ts end_ts) =
      table ∧
    ∀ raw : List RawItem,
      HourlyEtl.hourly_run_ops (Except.ok raw) transform start_ts end_ts =
        Except.ok [HourlyEtl.DbOp.deleteRange start_ts end_ts,
                   HourlyEtl.DbOp.insertRows (transform raw)] :=
  ⟨rfl, rfl, fun _ => rfl⟩

theorem lookup_none_not_mem {α β : Type} [BEq α] [LawfulBEq α]
    (l : List (α × β)) (k : α) (h : l.lookup k = none) :
    ∀ e ∈ l, e.1 ≠ k := by
  induction l with
  | nil => intro e he; cases he
  | cons p ps ih =>
      intro e he
      obtain ⟨k', v'⟩ := p
      cases hb : (k == k') with
      | true => simp [List.lookup, hb] at h
      | false =>
          simp only [List.lookup, hb] at h
          rcases List.mem_cons.mp he with he | he
          · subst he
            intro hek
            subst hek
            simp at hb
          · exact ih h e he

theorem lookup_some_mem {α β : Type} [BEq α] [LawfulBEq α]
    (l : List (α × β)) (k : α) (b : β) (h : l.lookup k = some b) :
    (k, b) ∈ l := by
  induction l with
  | nil => cases h
  | cons p ps ih =>
      obtain ⟨k', v'⟩ := p
      cases hb : (k == k') with
      | true =>
          simp only [List.lookup, hb] at h
          have hk : k = k' := by simpa using hb
          have hv : v' = b := by simpa using h
          subst hk; subst hv
          exact List.mem_cons_self _ _
      | false =>
          simp only [List.lookup, hb] at h
          exact List.mem_cons_of_mem _ (ih h)

theorem sum_map_ite_split {α : Type} (l : List α) (c : α → Bool)
    (u v : α → ℚ) :
    (l.map (fun x => if c x then u x else v x)).sum =
      ((l.filter c).map u).sum +
        ((l.filter (fun x => !(c x))).map v).sum := by
  induction l with
  | nil => simp
  | cons x xs ih => cases hc : c x <;> simp [hc, ih] <;> ring

theorem sum_map_sub_q {α : Type} (l : List α) (f g : α → ℚ) :
    (l.map (fun x => f x - g x)).sum = (l.map f).sum - (l.map g).sum := by
  induction l with
  | nil => simp
  | cons x xs ih => simp [ih]; ring

theorem abs_sum_le_count_half (l : List ℚ) (h : ∀ x ∈ l, |x| ≤ 1/2) :
    |l.sum| ≤ (l.length : ℚ) / 2 := by
  induction l with
  | nil => simp
  | cons x xs ih =>
      have hx : |x| ≤ 1/2 := h x (List.mem_cons_self _ _)
      have hxs : |xs.sum| ≤ (xs.length : ℚ) / 2 :=
        ih (fun y hy => h y (List.mem_cons_of_mem _ hy))
      calc |(x :: xs).sum| = |x + xs.sum| := by simp
    _ ≤ |x| + |xs.sum| := abs_add _ _
    _ ≤ 1/2 + (xs.length : ℚ) / 2 := by linarith
    _ = ((x :: xs).length : ℚ) / 2 := by
          rw [List.length_cons]; push_cast; ring

theorem natCast_sum_map {α : Type} (l : List α) (f : α → ℕ) :
    (((l.map f).sum : ℕ) : ℚ) = (l.map (fun x => (f x : ℚ))).sum := by
  induction l with
  | nil => simp
  | cons x xs ih =>
      rw [List.map_cons, List.sum_cons, Nat.cast_add, ih, List.map_cons,
          List.sum_cons]

namespace CfEtl

theorem pyRound_abs_le (q : ℚ) : |((pyRound q : ℤ) : ℚ) - q| ≤ 1/2 := by
  have h0 : (0 : ℚ) ≤ Int.fract q := Int.fract_nonneg q
  have h1 : Int.fract q < 1 := Int.fract_lt_one q
  have hfl : ((⌊q⌋ : ℤ) : ℚ) = q - Int.fract q := by
    rw [Int.self_sub_fract]
  unfold pyRound
  by_cases hc : Int.fract q < 1/2
  · rw [if_pos hc, hfl, abs_le]
    constructor <;> linarith
  · rw [if_neg hc]
    by_cases hc2 : 1/2 < Int.fract q
    · rw [if_pos hc2]
      push_cast
      rw [hfl, abs_le]
      constructor <;> linarith
    · have heq : Int.fract q = 1/2 := le_antisymm (not_lt.mp hc2) (not_lt.mp hc)
      rw [if_neg hc2]
      by_cases he : ⌊q⌋ % 2 = 0
      · rw [if_pos he, hfl, heq, abs_le]
        constructor <;> linarith
      · rw [if_neg he]
        push_cast
        rw [hfl, heq, abs_le]
        constructor <;> linarith

theorem sum_pyRound_close {α : Type} (g : List α) (x : α → ℚ) (X : ℚ)
    (hx : (g.map x).sum = X) :
    |(g.map (fun r => ((pyRound (x r) : ℤ) : ℚ))).sum - X| ≤
      (g.length : ℚ) / 2 := by
  have hsub : (g.map (fun r => ((pyRound (x r) : ℤ) : ℚ))).sum - X =
      (g.map (fun r => ((pyRound (x r) : ℤ) : ℚ) - x r)).sum := by
    rw [sum_map_sub_q, hx]
  rw [hsub]
  have := abs_sum_le_count_half
    (g.map (fun r => ((pyRound (x r) : ℤ) : ℚ) - x r))
    (by
      intro y hy
      obtain ⟨r, _, rfl⟩ := List.mem_map.mp hy
      exact pyRound_abs_le (x r))
  simpa using this

theorem sum_map_const_div (g : List CfRow) (X : ℚ) (hg : g ≠ []) :
    (g.map (fun _ => X / (g.length : ℚ))).sum = X := by
  have hlen : (g.length : ℚ) ≠ 0 := by
    have := List.length_pos.mpr hg
    positivity
  rw [List.map_const']
  rw [List.sum_replicate, nsmul_eq_mul]
  field_simp

theorem sum_map_share (g : List CfRow) (X T : ℚ)
    (hT : (g.map (fun x => (x.impressions : ℚ))).sum = T) (hT0 : T ≠ 0) :
    (g.map (fun r => X * ((r.impressions : ℚ) / T))).sum = X := by
  have hptw : ∀ r ∈ g, X * ((r.impressions : ℚ) / T) =
      (X / T) * (r.impressions : ℚ) := by
    intro r _; ring
  rw [List.map_congr_left hptw, List.sum_map_mul_left, hT]
  field_simp

theorem alloc_spend_sum (a : MtgAgg) (g : List CfRow) (hg : g ≠ []) :
    (g.map (fun r => (allocate_cf_row a g r).spend)).sum = a.spend := by
  by_cases ht : (g.map (fun x => x.impressions)).sum = 0
  · have hptw : ∀ r ∈ g, (allocate_cf_row a g r).spend =
        a.spend / (g.length : ℚ) := by
      intro r _
      simp [allocate_cf_row, ht]
    rw [List.map_congr_left hptw]
    exact sum_map_const_div g a.spend hg
  · have hT0 : ((((g.map (fun x => x.impressions)).sum : ℕ)) : ℚ) ≠ 0 := by
      exact_mod_cast ht
    have hptw : ∀ r ∈ g, (allocate_cf_row a g r).spend =
        a.spend * ((r.impressions : ℚ) /
          (((g.map (fun x => x.impressions)).sum : ℕ) : ℚ)) := by
      intro r _
      simp [allocate_cf_row, ht]
    rw [List.map_congr_left hptw]
    exact sum_map_share g a.spend _ (natCast_sum_map g _).symm hT0

theorem alloc_msums (a : MtgAgg) (g : List CfRow) (hg : g ≠ []) :
    |(g.map (fun r => ((allocate_cf_row a g r).m_imp : ℚ))).sum -
        (a.m_imp : ℚ)| ≤ (g.length : ℚ) / 2 ∧
    |(g.map (fun r => ((allocate_cf_row a g r).m_clicks : ℚ))).sum -
        (a.m_clicks : ℚ)| ≤ (g.length : ℚ) / 2 ∧
    |(g.map (fun r => ((allocate_cf_row a g r).m_conv : ℚ))).sum -
        (a.m_conv : ℚ)| ≤ (g.length : ℚ) / 2 := by
  have hpos : 0 < g.length := List.length_pos.mpr hg
  by_cases ht : (g.map (fun x => x.impressions)).sum = 0
  · refine ⟨?_, ?_, ?_⟩
    · have hptw : ∀ r ∈ g, ((allocate_cf_row a g r).m_imp : ℚ) =
          ((pyRound ((a.m_imp : ℚ) / (g.length : ℚ)) : ℤ) : ℚ) := by
        intro r _
        simp [allocate_cf_row, ht, hpos]
      rw [List.map_congr_left hptw]
      exact sum_pyRound_close g (fun _ => (a.m_imp : ℚ) / (g.length : ℚ)) _
        (sum_map_const_div g _ hg)
    · have hptw : ∀ r ∈ g, ((allocate_cf_row a g r).m_clicks : ℚ) =
          ((pyRound ((a.m_clicks : ℚ) / (g.length : ℚ)) : ℤ) : ℚ) := by
        intro r _
        simp [allocate_cf_row, ht, hpos]
      rw [List.map_congr_left hptw]
      exact sum_pyRound_close g (fun _ => (a.m_clicks : ℚ) / (g.length : ℚ)) _
        (sum_map_const_div g _ hg)
    · have hptw : ∀ r ∈ g, ((allocate_cf_row a g r).m_conv : ℚ) =
          ((pyRound ((a.m_conv : ℚ) / (g.length : ℚ)) : ℤ) : ℚ) := by
        intro r _
        simp [allocate_cf_row, ht, hpos]
      rw [List.map_congr_left hptw]
      exact sum_pyRound_close g (fun _ => (a.m_conv : ℚ) / (g.length : ℚ)) _
        (sum_map_const_div g _ hg)
  · have hT0 : ((((g.map (fun x => x.impressions)).sum : ℕ)) : ℚ) ≠ 0 := by
      exact_mod_cast ht
    refine ⟨?_, ?_, ?_⟩
    · have hptw : ∀ r ∈ g, ((allocate_cf_row a g r).m_imp : ℚ) =
          ((pyRound ((a.m_imp : ℚ) * ((r.impressions : ℚ) /
            (((g.map (fun x => x.impressions)).sum : ℕ) : ℚ))) : ℤ) : ℚ) := by
        intro r _
        simp [allocate_cf_row, ht]
      rw [List.map_congr_left hptw]
      exact sum_pyRound_close g _ _
        (sum_map_share g _ _ (natCast_sum_map g _).symm hT0)
    · have hptw : ∀ r ∈ g, ((allocate_cf_row a g r).m_clicks : ℚ) =
          ((pyRound ((a.m_clicks : ℚ) * ((r.impressions : ℚ) /
            (((g.map (fun x => x.impressions)).sum : ℕ) : ℚ))) : ℤ) : ℚ) := by
        intro r _
        simp [allocate_cf_row, ht]
      rw [List.map_congr_left hptw]
      exact sum_pyRound_close g _ _
        (sum_map_share g _ _ (natCast_sum_map g _).symm hT0)
    · have hptw : ∀ r ∈ g, ((allocate_cf_row a g r).m_conv : ℚ) =
          ((pyRound ((a.m_conv : ℚ) * ((r.impressions : ℚ) /
            (((g.map (fun x => x.impressions)).sum : ℕ) : ℚ))) : ℤ) : ℚ) := by
        intro r _
        simp [allocate_cf_row, ht]
      rw [List.map_congr_left hptw]
      exact sum_pyRound_close g _ _
        (sum_map_share g _ _ (natCast_sum_map g _).symm hT0)

theorem allocate_adset (a : MtgAgg) (g : List CfRow) (r : CfRow) :
    (allocate_cf_row a g r).AdsetID = r.AdsetID := by
  by_cases h : (g.map (fun x => x.impressions)).sum = 0 <;>
    simp [allocate_cf_row, h]

theorem filter_map_of_key {f : CfRow → CfRow}
    (hf : ∀ r, (f r).AdsetID = r.AdsetID) (l : List CfRow) (k : String) :
    (l.map f).filter (fun r => r.AdsetID == k) =
      (l.filter (fun r => r.AdsetID == k)).map f := by
  induction l with
  | nil => rfl
  | cons x xs ih =>
      have hfx : ((f x).AdsetID == k) = (x.AdsetID == k) := by rw [hf]
      cases hb : (x.AdsetID == k) with
      | true => simp [List.filter_cons, hfx, hb, ih]
      | false => simp [List.filter_cons, hfx, hb, ih]

theorem new_rows_filter_nil_of_no_key (ps : List (String × MtgAgg))
    (cf : List CfRow) (rd : Option String) (k : String)
    (hno : ∀ p ∈ ps, p.1 ≠ k) :
    (ps.filterMap (fun p => if cf.any (fun r => r.AdsetID == p.1) then none
        else some (mtg_new_row rd p.1 p.2))).filter
      (fun r => r.AdsetID == k) = [] := by
  induction ps with
  | nil => rfl
  | cons p ps ih =>
      have hp : p.1 ≠ k := hno p (List.mem_cons_self _ _)
      have hrest := ih (fun q hq => hno q (List.mem_cons_of_mem _ hq))
      simp only [List.filterMap_cons]
      by_cases hc : cf.any (fun r => r.AdsetID == p.1) = true
      · simp only [hc, if_true]
        exact hrest
      · have hne : ((mtg_new_row rd p.1 p.2).AdsetID == k) = false := by
          simp [mtg_new_row, hp]
        rw [if_neg hc, List.filter_cons, hne]
        simpa using hrest

theorem new_rows_filter_nil_of_any (es : List (String × MtgAgg))
    (cf : List CfRow) (rd : Option String) (k : String)
    (hany : cf.any (fun r => r.AdsetID == k) = true) :
    (es.filterMap (fun p => if cf.any (fun r => r.AdsetID == p.1) then none
        else some (mtg_new_row rd p.1 p.2))).filter
      (fun r => r.AdsetID == k) = [] := by
  induction es with
  | nil => rfl
  | cons p ps ih =>
      simp only [List.filterMap_cons]
      by_cases hc : cf.any (fun r => r.AdsetID == p.1) = true
      · simp only [hc, if_true]
        exact ih
      · have hp : p.1 ≠ k := by
          intro h
          rw [h] at hc
          exact hc hany
        have hne : ((mtg_new_row rd p.1 p.2).AdsetID == k) = false := by
          simp [mtg_new_row, hp]
        rw [if_neg hc, List.filter_cons, hne]
        simpa using ih

theorem new_rows_filter_single (es : List (String × MtgAgg))
    (cf : List CfRow) (rd : Option String) (k : String) (a : MtgAgg)
    (hnd : (es.map Prod.fst).Nodup) (hmem : (k, a) ∈ es)
    (hany : cf.any (fun r => r.AdsetID == k) = false) :
    (es.filterMap (fun p => if cf.any (fun r => r.AdsetID == p.1) then none
        else some (mtg_new_row rd p.1 p.2))).filter
      (fun r => r.AdsetID == k) = [mtg_new_row rd k a] := by
  induction es with
  | nil => cases hmem
  | cons p ps ih =>
      simp only [List.map_cons, List.nodup_cons] at hnd
      obtain ⟨hpn, hnd2⟩ := hnd
      simp only [List.filterMap_cons]
      rcases List.mem_cons.mp hmem with hm | hm
      · subst hm
        have htail :
            (ps.filterMap (fun p => if cf.any (fun r => r.AdsetID == p.1)
                then none else some (mtg_new_row rd p.1 p.2))).filter
              (fun r => r.AdsetID == k) = [] := by
          apply new_rows_filter_nil_of_no_key
          intro q hq hqk
          exact hpn (hqk ▸ List.mem_map.mpr ⟨q, hq, rfl⟩)
        have hrow : ((mtg_new_row rd k a).AdsetID == k) = true := by
          simp [mtg_new_row]
        have hanyp : ¬(cf.any (fun r => r.AdsetID == (k, a).1) = true) := by
          simpa using hany
        rw [if_neg hanyp, List.filter_cons]
        simp only [hrow, if_true, htail]
      · have hp1 : p.1 ≠ k := by
          intro h
          exact hpn (h ▸ List.mem_map.mpr ⟨(k, a), hm, rfl⟩)
        by_cases hc : cf.any (fun r => r.AdsetID == p.1) = true
        · simp only [hc, if_true]
          exact ih hnd2 hm
        · have hne : ((mtg_new_row rd p.1 p.2).AdsetID == k) = false := by
            simp [mtg_new_row, hp1]
          rw [if_neg hc, List.filter_cons, hne]
          simpa using ih hnd2 hm

theorem upd_map_fst (l : List (String × MtgAgg)) (k : String) (r : MtgRow) :
    ((l.map (fun e => if e.1 = k then (e.1, mtg_agg_add e.2 r) else e)).map
      Prod.fst) = l.map Prod.fst := by
  rw [List.map_map]
  apply List.map_congr_left
  intro e _
  by_cases h : e.1 = k <;> simp [h, Function.comp]

theorem mtg_by_adset_aux_nodup (mtg : List MtgRow)
    (acc : List (String × MtgAgg)) (hacc : (acc.map Prod.fst).Nodup) :
    ((mtg.foldl
      (fun acc r =>
        if r.AdsetID = "" ∨ r.AdsetID = "0" then acc
        else
          match acc.lookup r.AdsetID with
          | some _ =>
              acc.map (fun e =>
                if e.1 = r.AdsetID then (e.1, mtg_agg_add e.2 r) else e)
          | none => acc ++ [(r.AdsetID, mtg_agg_add (mtg_agg_init r) r)])
      acc).map Prod.fst).Nodup := by
  induction mtg generalizing acc with
  | nil => simpa using hacc
  | cons r rest ih =>
      simp only [List.foldl_cons]
      apply ih
      by_cases hskip : r.AdsetID = "" ∨ r.AdsetID = "0"
      · simpa [hskip] using hacc
      · rw [if_neg hskip]
        cases hl : acc.lookup r.AdsetID with
        | some b =>
            rw [upd_map_fst]
            exact hacc
        | none =>
            have hnot : r.AdsetID ∉ acc.map Prod.fst := by
              intro hmem
              obtain ⟨e, he, hfst⟩ := List.mem_map.mp hmem
              exact lookup_none_not_mem acc r.AdsetID hl e he hfst
            rw [List.map_append]
            simp [List.nodup_append, hacc, hnot]

theorem mtg_by_adset_keys_nodup (mtg : List MtgRow) :
    ((mtg_by_adset mtg).map Prod.fst).Nodup := by
  unfold mtg_by_adset
  exact mtg_by_adset_aux_nodup mtg [] (by simp)

/-- C6: CostDataMerger allocation is conservative — for every aggregated
MTG AdsetID key (value `a`), provided the key has at least one eligible
(special-media) matching CF row or no matching CF row at all, the merged
output's total spend over the rows carrying that key exceeds the untouched
non-eligible rows' spend by exactly `a.spend` (exact, for both the
even split and the proportional-by-impressions split), and each mobile
counter total is within rounding distance (half a unit per eligible row) of
the aggregated value. -/
theorem c6_cost_allocation_conservation (keywords : List String)
    (cf_data : List CfRow) (mtg_data : List MtgRow) (k : String) (a : MtgAgg)
    (hk : (mtg_by_adset mtg_data).lookup k = some a)
    (helig : special_rows_for keywords cf_data k ≠ [] ∨
             ∀ r ∈ cf_data, r.AdsetID ≠ k) :
    spendSum ((merge_mtg_data_to_cf keywords cf_data mtg_data).filter
        (fun r => r.AdsetID == k)) =
      a.spend + spendSum (cf_data.filter (fun r =>
        r.AdsetID == k && !(is_special_media keywords r.Media))) ∧
    |mImpSum ((merge_mtg_data_to_cf keywords cf_data mtg_data).filter
        (fun r => r.AdsetID == k)) -
      ((a.m_imp : ℚ) + mImpSum (cf_data.filter (fun r =>
        r.AdsetID == k && !(is_special_media keywords r.Media))))| ≤
      ((special_rows_for keywords cf_data k).length : ℚ) / 2 ∧
    |mClicksSum ((merge_mtg_data_to_cf keywords cf_data mtg_data).filter
        (fun r => r.AdsetID == k)) -
      ((a.m_clicks : ℚ) + mClicksSum (cf_data.filter (fun r =>
        r.AdsetID == k && !(is_special_media keywords r.Media))))| ≤
      ((special_rows_for keywords cf_data k).length : ℚ) / 2 ∧
    |mConvSum ((merge_mtg_data_to_cf keywords cf_data mtg_data).filter
        (fun r => r.AdsetID == k)) -
      ((a.m_conv : ℚ) + mConvSum (cf_data.filter (fun r =>
        r.AdsetID == k && !(is_special_media keywords r.Media))))| ≤
      ((special_rows_for keywords cf_data k).length : ℚ) / 2 := by
  have hne : mtg_data ≠ [] := by
    intro h
    rw [h] at hk
    simp [mtg_by_adset] at hk
  have hf : ∀ r : CfRow,
      ((match (mtg_by_adset mtg_data).lookup r.AdsetID with
        | some b =>
            if is_special_media keywords r.Media then
              allocate_cf_row b (special_rows_for keywords cf_data r.AdsetID) r
            else r
        | none => r) : CfRow).AdsetID = r.AdsetID := by
    intro r
    cases (mtg_by_adset mtg_data).lookup r.AdsetID with
    | none => rfl
    | some b =>
        by_cases hsp : is_special_media keywords r.Media
        · simp [hsp, allocate_adset]
        · simp [hsp]
  have hsplit : (merge_mtg_data_to_cf keywords cf_data mtg_data).filter
      (fun r => r.AdsetID == k) =
    ((cf_data.filter (fun r => r.AdsetID == k)).map
      (fun r =>
        match (mtg_by_adset mtg_data).lookup r.AdsetID with
        | some b =>
            if is_special_media keywords r.Media then
              allocate_cf_row b (special_rows_for keywords cf_data r.AdsetID) r
            else r
        | none => r)) ++
    (((mtg_by_adset mtg_data).filterMap (fun p =>
        if cf_data.any (fun r => r.AdsetID == p.1) then none
        else some (mtg_new_row
          (match cf_data.head? with
           | some r => r.reportDate
           | none => none) p.1 p.2))).filter (fun r => r.AdsetID == k)) := by
    unfold merge_mtg_data_to_cf
    rw [if_neg hne]
    rw [List.filter_append, filter_map_of_key hf]
  rcases helig with hg | hnone
  · -- at least one eligible matching CF row: the updated rows carry the
    -- allocation, no new row is synthesized for this key
    obtain ⟨r0, hr0⟩ := List.exists_mem_of_ne_nil _ hg
    have hr0m : r0 ∈ cf_data ∧ (r0.AdsetID == k && is_special_media keywords r0.Media) = true := by
      simpa [special_rows_for, List.mem_filter] using hr0
    have hany : cf_data.any (fun r => r.AdsetID == k) = true := by
      rw [List.any_eq_true]
      exact ⟨r0, hr0m.1, Bool.and_elim_left hr0m.2⟩
    have hnewnil := new_rows_filter_nil_of_any (mtg_by_adset mtg_data) cf_data
      (match cf_data.head? with
       | some r => r.reportDate
       | none => none) k hany
    have hcong : ∀ r ∈ cf_data.filter (fun r => r.AdsetID == k),
        (match (mtg_by_adset mtg_data).lookup r.AdsetID with
         | some b =>
             if is_special_media keywords r.Media then
               allocate_cf_row b (special_rows_for keywords cf_data r.AdsetID) r
             else r
         | none => r) =
        (if is_special_media keywords r.Media then
            allocate_cf_row a (special_rows_for keywords cf_data k) r
         else r) := by
      intro r hr
      have hrk : r.AdsetID = k := by
        have := (List.mem_filter.mp hr).2
        simpa using this
      rw [hrk, hk]
    rw [hsplit, hnewnil, List.append_nil, List.map_congr_left hcong]
    have hfs : (cf_data.filter (fun r => r.AdsetID == k)).filter
        (fun r => is_special_media keywords r.Media) =
        special_rows_for keywords cf_data k := by
      rw [List.filter_filter]
      unfold special_rows_for
      apply List.filter_congr
      intro r _
      rw [Bool.and_comm]
    have hfn : (cf_data.filter (fun r => r.AdsetID == k)).filter
        (fun r => !(is_special_media keywords r.Media)) =
        cf_data.filter (fun r =>
          r.AdsetID == k && !(is_special_media keywords r.Media)) := by
      rw [List.filter_filter]
      apply List.filter_congr
      intro r _
      rw [Bool.and_comm]
    have hgs := alloc_spend_sum a (special_rows_for keywords cf_data k) hg
    have hms := alloc_msums a (special_rows_for keywords cf_data k) hg
    refine ⟨?_, ?_, ?_, ?_⟩
    · unfold spendSum
      rw [List.map_map]
      have hptw : ∀ r ∈ cf_data.filter (fun r => r.AdsetID == k),
          ((fun x => x.spend) ∘ (fun r =>
            if is_special_media keywords r.Media then
              allocate_cf_row a (special_rows_for keywords cf_data k) r
            else r)) r =
          (if is_special_media keywords r.Media then
            (allocate_cf_row a (special_rows_for keywords cf_data k) r).spend
          else r.spend) := by
        intro r _
        exact apply_ite (fun x : CfRow => x.spend) _ _ _
      rw [List.map_congr_left hptw, sum_map_ite_split, hfs, hfn, hgs]
    · unfold mImpSum
      rw [List.map_map]
      have hptw : ∀ r ∈ cf_data.filter (fun r => r.AdsetID == k),
          ((fun x => (x.m_imp : ℚ)) ∘ (fun r =>
            if is_special_media keywords r.Media then
              allocate_cf_row a (special_rows_for keywords cf_data k) r
            else r)) r =
          (if is_special_media keywords r.Media then
            ((allocate_cf_row a (special_rows_for keywords cf_data k) r).m_imp : ℚ)
          else (r.m_imp : ℚ)) := by
        intro r _
        exact apply_ite (fun x : CfRow => (x.m_imp : ℚ)) _ _ _
      rw [List.map_congr_left hptw, sum_map_ite_split, hfs, hfn]
      have harith :
          ((special_rows_for keywords cf_data k).map (fun r =>
            ((allocate_cf_row a (special_rows_for keywords cf_data k) r).m_imp : ℚ))).sum +
          ((cf_data.filter (fun r =>
            r.AdsetID == k && !(is_special_media keywords r.Media))).map
              (fun r => (r.m_imp : ℚ))).sum -
          ((a.m_imp : ℚ) +
            ((cf_data.filter (fun r =>
              r.AdsetID == k && !(is_special_media keywords r.Media))).map
                (fun r => (r.m_imp : ℚ))).sum) =
          ((special_rows_for keywords cf_data k).map (fun r =>
            ((allocate_cf_row a (special_rows_for keywords cf_data k) r).m_imp : ℚ))).sum -
            (a.m_imp : ℚ) := by
        ring
      rw [harith]
      exact hms.1
    · unfold mClicksSum
      rw [List.map_map]
      have hptw : ∀ r ∈ cf_data.filter (fun r => r.AdsetID == k),
          ((fun x => (x.m_clicks : ℚ)) ∘ (fun r =>
            if is_special_media keywords r.Media then
              allocate_cf_row a (special_rows_for keywords cf_data k) r
            else r)) r =
          (if is_special_media keywords r.Media then
            ((allocate_cf_row a (special_rows_for keywords cf_data k) r).m_clicks : ℚ)
          else (r.m_clicks : ℚ)) := by
        intro r _
        exact apply_ite (fun x : CfRow => (x.m_clicks : ℚ)) _ _ _
      rw [List.map_congr_left hptw, sum_map_ite_split, hfs, hfn]
      have harith :
          ((special_rows_for keywords cf_data k).map (fun r =>
            ((allocate_cf_row a (special_rows_for keywords cf_data k) r).m_clicks : ℚ))).sum +
          ((cf_data.filter (fun r =>
            r.AdsetID == k && !(is_special_media keywords r.Media))).map
              (fun r => (r.m_clicks : ℚ))).sum -
          ((a.m_clicks : ℚ) +
            ((cf_data.filter (fun r =>
              r.AdsetID == k && !(is_special_media keywords r.Media))).map
                (fun r => (r.m_clicks : ℚ))).sum) =
          ((special_rows_for keywords cf_data k).map (fun r =>
            ((allocate_cf_row a (special_rows_for keywords cf_data k) r).m_clicks : ℚ))).sum -
            (a.m_clicks : ℚ) := by
        ring
      rw [harith]
      exact hms.2.1
    · unfold mConvSum
      rw [List.map_map]
      have hptw : ∀ r ∈ cf_data.filter (fun r => r.AdsetID == k),
          ((fun x => (x.m_conv : ℚ)) ∘ (fun r =>
            if is_special_media keywords r.Media then
              allocate_cf_row a (special_rows_for keywords cf_data k) r
            else r)) r =
          (if is_special_media keywords r.Media then
            ((allocate_cf_row a (special_rows_for keywords cf_data k) r).m_conv : ℚ)
          else (r.m_conv : ℚ)) := by
        intro r _
        exact apply_ite (fun x : CfRow => (x.m_conv : ℚ)) _ _ _
      rw [List.map_congr_left hptw, sum_map_ite_split, hfs, hfn]
      have harith :
          ((special_rows_for keywords cf_data k).map (fun r =>
            ((allocate_cf_row a (special_rows_for keywords cf_data k) r).m_conv : ℚ))).sum +
          ((cf_data.filter (fun r =>
            r.AdsetID == k && !(is_special_media keywords r.Media))).map
              (fun r => (r.m_conv : ℚ))).sum -
          ((a.m_conv : ℚ) +
            ((cf_data.filter (fun r =>
              r.AdsetID == k && !(is_special_media keywords r.Media))).map
                (fun r => (r.m_conv : ℚ))).sum) =
          ((special_rows_for keywords cf_data k).map (fun r =>
            ((allocate_cf_row a (special_rows_for keywords cf_data k) r).m_conv : ℚ))).sum -
            (a.m_conv : ℚ) := by
        ring
      rw [harith]
      exact hms.2.2
  · -- no matching CF row: exactly one synthesized MTG-only row carries the
    -- whole aggregate
    have hfilnil : cf_data.filter (fun r => r.AdsetID == k) = [] := by
      rw [List.filter_eq_nil_iff]
      intro r hr
      simp [hnone r hr]
    have hgk : special_rows_for keywords cf_data k = [] := by
      unfold special_rows_for
      rw [List.filter_eq_nil_iff]
      intro r hr
      simp [hnone r hr]
    have hbasenil : cf_data.filter (fun r =>
        r.AdsetID == k && !(is_special_media keywords r.Media)) = [] := by
      rw [List.filter_eq_nil_iff]
      intro r hr
      simp [hnone r hr]
    have hanyf : cf_data.any (fun r => r.AdsetID == k) = false := by
      rw [List.any_eq_false]
      intro r hr
      simp [hnone r hr]
    have hsingle := new_rows_filter_single (mtg_by_adset mtg_data) cf_data
      (match cf_data.head? with
       | some r => r.reportDate
       | none => none) k a (mtg_by_adset_keys_nodup mtg_data)
      (lookup_some_mem _ _ _ hk) hanyf
    rw [hsplit, hfilnil, hsingle, hbasenil, hgk]
    refine ⟨?_, ?_, ?_, ?_⟩ <;>
      simp [spendSum, mImpSum, mClicksSum, mConvSum, mtg_new_row]

theorem c6_cost_allocation_conservation_witness :
    (mtg_by_adset [⟨"K", "C", "S", "", "", 8, 4, 0, 0⟩]).lookup "K" =
      some ⟨8, 4, 0, 0, "C", "S", "", ""⟩ ∧
    special_rows_for ["mintegral"]
      [⟨none, "CF", "Mintegral", "", "", "", "", "", "", "", "", "", "",
        "K", "", "", 1, 0, 0, 0, 0, 0, 0, 0⟩,
       ⟨none, "CF", "Mintegral", "", "", "", "", "", "", "", "", "", "",
        "K", "", "", 3, 0, 0, 0, 0, 0, 0, 0⟩] "K" ≠ [] ∧
    spendSum ((merge_mtg_data_to_cf ["mintegral"]
      [⟨none, "CF", "Mintegral", "", "", "", "", "", "", "", "", "", "",
        "K", "", "", 1, 0, 0, 0, 0, 0, 0, 0⟩,
       ⟨none, "CF", "Mintegral", "", "", "", "", "", "", "", "", "", "",
        "K", "", "", 3, 0, 0, 0, 0, 0, 0, 0⟩]
      [⟨"K", "C", "S", "", "", 8, 4, 0, 0⟩]).filter
        (fun r => r.AdsetID == "K")) =
      (8 : ℚ) + spendSum
        ([⟨none, "CF", "Mintegral", "", "", "", "", "", "", "", "", "", "",
          "K", "", "", 1, 0, 0, 0, 0, 0, 0, 0⟩,
          ⟨none, "CF", "Mintegral", "", "", "", "", "", "", "", "", "", "",
          "K", "", "", 3, 0, 0, 0, 0, 0, 0, 0⟩].filter (fun r =>
            r.AdsetID == "K" && !(is_special_media ["mintegral"] r.Media))) := by
  have h1 : (mtg_by_adset [⟨"K", "C", "S", "", "", 8, 4, 0, 0⟩]).lookup "K" =
      some ⟨8, 4, 0, 0, "C", "S", "", ""⟩ := by
    simp [mtg_by_adset, mtg_agg_add, mtg_agg_init, List.lookup]
  have h2 : special_rows_for ["mintegral"]
      [⟨none, "CF", "Mintegral", "", "", "", "", "", "", "", "", "", "",
        "K", "", "", 1, 0, 0, 0, 0, 0, 0, 0⟩,
       ⟨none, "CF", "Mintegral", "", "", "", "", "", "", "", "", "", "",
        "K", "", "", 3, 0, 0, 0, 0, 0, 0, 0⟩] "K" ≠ [] := by
    decide
  exact ⟨h1, h2,
    (c6_cost_allocation_conservation ["mintegral"] _ _ "K"
      ⟨8, 4, 0, 0, "C", "S", "", ""⟩ h1 (Or.inl h2)).1⟩

end CfEtl

namespace Dashboard

theorem lookup_map_update (h : HMap) (q p : List String) (r : FlatRow) :
    (h.map (fun e => if e.1 = q then (e.1, accumMetrics e.2 r) else e)).lookup
        p =
      (h.lookup p).map (fun m => if p = q then accumMetrics m r else m) := by
  induction h with
  | nil => rfl
  | cons e t ih =>
      obtain ⟨k, v⟩ := e
      rw [List.map_cons]
      by_cases hk : k = q
      · subst hk
        dsimp only
        rw [if_pos rfl]
        cases hb : (p == k) with
        | true =>
            have hpk : p = k := by simpa using hb
            subst hpk
            simp [List.lookup]
        | false =>
            have hpk : p ≠ k := by simpa using hb
            simp [List.lookup, hb, ih, hpk]
      · dsimp only
        rw [if_neg hk]
        cases hb : (p == k) with
        | true =>
            have hpk : p = k := by simpa using hb
            have hpq : p ≠ q := by rw [hpk]; exact hk
            simp [List.lookup, hb, hpq]
        | false =>
            simp [List.lookup, hb, ih]

theorem lookup_updateAt (h : HMap) (q p : List String) (r : FlatRow) :
    (updateAt h q r).lookup p =
      if p = q then
        some (match h.lookup q with
              | some m => accumMetrics m r
              | none => initMetrics r)
      else h.lookup p := by
  unfold updateAt
  by_cases hin : (h.lookup q).isSome
  · rw [if_pos hin, lookup_map_update]
    obtain ⟨m, hm⟩ := Option.isSome_iff_exists.mp hin
    by_cases hpq : p = q
    · subst hpq
      simp [hm]
    · simp [hpq]
  · rw [if_neg hin, lookup_append]
    have hq : h.lookup q = none := Option.not_isSome_iff_eq_none.mp hin
    by_cases hpq : p = q
    · subst hpq
      rw [hq]
      simp [List.lookup, hq]
    · have hsing : ([(q, initMetrics r)] : HMap).lookup p = none := by
        have hb : (p == q) = false := by simpa using hpq
        simp [List.lookup, hb]
      cases hh : h.lookup p <;> simp [hh, hsing, hpq]

theorem insertPaths_lookup (h : HMap) (path : List String) (r : FlatRow) :
    ∀ (n : ℕ), n ≤ path.length → ∀ (p : List String),
    (insertPaths h path r n).lookup p =
      if p ≠ [] ∧ p.length ≤ n ∧ path.take p.length = p then
        some (match h.lookup p with
              | some m => accumMetrics m r
              | none => initMetrics r)
      else h.lookup p := by
  intro n
  induction n with
  | zero =>
      intro _ p
      have hnc : ¬(p ≠ [] ∧ p.length ≤ 0 ∧ path.take p.length = p) := by
        rintro ⟨hne, hle, -⟩
        exact hne (List.length_eq_zero.mp (Nat.le_zero.mp hle))
      rw [if_neg hnc]
      rfl
  | succ n ih =>
      intro hn p
      have hn' : n ≤ path.length := Nat.le_of_succ_le hn
      have htl : (path.take (n + 1)).length = n + 1 := by
        rw [List.length_take]
        exact min_eq_left hn
      simp only [insertPaths]
      rw [lookup_updateAt]
      by_cases hpq : p = path.take (n + 1)
      · rw [if_pos hpq]
        have hplen : p.length = n + 1 := by rw [hpq, htl]
        have hinner : (insertPaths h path r n).lookup p = h.lookup p := by
          rw [ih hn' p]
          apply if_neg
          rintro ⟨-, hle, -⟩
          omega
        rw [← hpq, hinner]
        have hcond : p ≠ [] ∧ p.length ≤ n + 1 ∧ path.take p.length = p := by
          refine ⟨?_, by omega, ?_⟩
          · intro hnil
            rw [hnil] at hplen
            simp at hplen
          · rw [hplen, ← hpq]
        rw [if_pos hcond]
      · rw [if_neg hpq, ih hn' p]
        have hiff : (p ≠ [] ∧ p.length ≤ n ∧ path.take p.length = p) ↔
            (p ≠ [] ∧ p.length ≤ n + 1 ∧ path.take p.length = p) := by
          constructor
          · rintro ⟨h1, h2, h3⟩
            exact ⟨h1, by omega, h3⟩
          · rintro ⟨h1, h2, h3⟩
            refine ⟨h1, ?_, h3⟩
            rcases Nat.lt_or_ge p.length (n + 1) with hlt | hge
            · omega
            · exfalso
              have hpl : p.length = n + 1 := by omega
              exact hpq (by rw [← h3, hpl])
        rw [if_congr hiff rfl rfl]

theorem fetch_hierarchy_append (rows : List FlatRow) (r : FlatRow)
    (dims : List String) :
    fetch_hierarchy (rows ++ [r]) dims =
      insertRow dims (fetch_hierarchy rows dims) r := by
  unfold fetch_hierarchy
  rw [List.foldl_append]
  rfl

theorem rowPath_length (dims : List String) (r : FlatRow) :
    (rowPath dims r).length = dims.length := by
  unfold rowPath
  rw [List.length_map]

theorem fetch_hierarchy_lookup (dims : List String) (rows : List FlatRow)
    (p : List String) (hp : p ≠ []) :
    (fetch_hierarchy rows dims).lookup p =
      match rows.filter
        (fun r => decide ((rowPath dims r).take p.length = p)) with
      | [] => none
      | r :: rest => some (nodeFold r rest) := by
  induction rows using List.reverseRecOn with
  | nil => rfl
  | append_singleton rows r ih =>
      rw [fetch_hierarchy_append]
      unfold insertRow
      have hlen : dims.length ≤ (rowPath dims r).length := by
        rw [rowPath_length]
      rw [insertPaths_lookup _ _ _ dims.length hlen p, List.filter_append]
      by_cases hc : p.length ≤ dims.length ∧ (rowPath dims r).take p.length = p
      · have hcond : p ≠ [] ∧ p.length ≤ dims.length ∧
            (rowPath dims r).take p.length = p := ⟨hp, hc.1, hc.2⟩
        rw [if_pos hcond, ih]
        have hfr : [r].filter
            (fun r => decide ((rowPath dims r).take p.length = p)) = [r] := by
          simp [hc.2]
        rw [hfr]
        cases hfil : rows.filter
            (fun r => decide ((rowPath dims r).take p.length = p)) with
        | nil => simp [nodeFold]
        | cons r0 rest =>
            unfold nodeFold
            simp [List.foldl_append]
      · have hcond : ¬(p ≠ [] ∧ p.length ≤ dims.length ∧
            (rowPath dims r).take p.length = p) := by
          rintro ⟨-, h1, h2⟩
          exact hc ⟨h1, h2⟩
        rw [if_neg hcond, ih]
        have hpred : (rowPath dims r).take p.length ≠ p := by
          by_cases hle : p.length ≤ dims.length
          · exact fun h => hc ⟨hle, h⟩
          · intro h
            have hl2 := congrArg List.length h
            rw [List.length_take, rowPath_length] at hl2
            omega
        have hfr : [r].filter
            (fun r => decide ((rowPath dims r).take p.length = p)) = [] := by
          simp [hpred]
        rw [hfr, List.append_nil]

theorem fetch_hierarchy_lookup_nil (dims : List String) (rows : List FlatRow) :
    (fetch_hierarchy rows dims).lookup [] = none := by
  induction rows using List.reverseRecOn with
  | nil => rfl
  | append_singleton rows r ih =>
      rw [fetch_hierarchy_append]
      unfold insertRow
      have hlen : dims.length ≤ (rowPath dims r).length := by
        rw [rowPath_length]
      rw [insertPaths_lookup _ _ _ dims.length hlen []]
      rw [if_neg (by rintro ⟨hne, -, -⟩; exact hne rfl)]
      exact ih

theorem nodeFold_fold_add {M : Type} [AddCommMonoid M] (f : NodeMetrics → M)
    (fr : FlatRow → M) (hacc : ∀ e r, f (accumMetrics e r) = f e + fr r) :
    ∀ (l : List FlatRow) (e : NodeMetrics),
      f (l.foldl accumMetrics e) = f e + (l.map fr).sum := by
  intro l
  induction l with
  | nil => intro e; simp
  | cons x xs ih =>
      intro e
      rw [List.foldl_cons, ih, hacc, List.map_cons, List.sum_cons, add_assoc]

theorem nodeFold_sum {M : Type} [AddCommMonoid M] (f : NodeMetrics → M)
    (fr : FlatRow → M) (hinit : ∀ r, f (initMetrics r) = fr r)
    (hacc : ∀ e r, f (accumMetrics e r) = f e + fr r)
    (r : FlatRow) (rest : List FlatRow) :
    f (nodeFold r rest) = ((r :: rest).map fr).sum := by
  unfold nodeFold
  rw [nodeFold_fold_add f fr hacc, hinit, List.map_cons, List.sum_cons]

theorem map_update_fst_hmap (h : HMap) (q : List String) (r : FlatRow) :
    ((h.map (fun e => if e.1 = q then (e.1, accumMetrics e.2 r) else e)).map
      Prod.fst) = h.map Prod.fst := by
  rw [List.map_map]
  apply List.map_congr_left
  intro e _
  by_cases he : e.1 = q <;> simp [he, Function.comp]

theorem updateAt_keys_nodup (h : HMap) (q : List String) (r : FlatRow)
    (hnd : (h.map Prod.fst).Nodup) :
    ((updateAt h q r).map Prod.fst).Nodup := by
  unfold updateAt
  by_cases hin : (h.lookup q).isSome
  · rw [if_pos hin, map_update_fst_hmap]
    exact hnd
  · rw [if_neg hin, List.map_append]
    have hq := Option.not_isSome_iff_eq_none.mp hin
    have hnot : q ∉ h.map Prod.fst := by
      intro hm
      obtain ⟨e, he, hf⟩ := List.mem_map.mp hm
      exact lookup_none_not_mem h q hq e he hf
    simp [List.nodup_append, hnd, hnot]

theorem insertPaths_keys_nodup (h : HMap) (path : List String) (r : FlatRow) :
    ∀ n : ℕ, (h.map Prod.fst).Nodup →
      ((insertPaths h path r n).map Prod.fst).Nodup := by
  intro n
  induction n with
  | zero => exact fun hnd => hnd
  | succ n ih =>
      intro hnd
      simp only [insertPaths]
      exact updateAt_keys_nodup _ _ _ (ih hnd)

theorem fetch_keys_nodup (rows : List FlatRow) (dims : List String) :
    ((fetch_hierarchy rows dims).map Prod.fst).Nodup := by
  induction rows using List.reverseRecOn with
  | nil => simp [fetch_hierarchy]
  | append_singleton rows r ih =>
      rw [fetch_hierarchy_append]
      exact insertPaths_keys_nodup _ _ _ dims.length ih

theorem topNodes_map_update (h : HMap) (q : List String) (r : FlatRow)
    (hq : q.length ≠ 1) :
    topNodes (h.map (fun e => if e.1 = q then (e.1, accumMetrics e.2 r)
      else e)) = topNodes h := by
  induction h with
  | nil => rfl
  | cons e t ih =>
      obtain ⟨k, v⟩ := e
      unfold topNodes at ih ⊢
      rw [List.map_cons]
      dsimp only
      by_cases hk : k = q
      · rw [if_pos hk]
        have hlen : (k.length == 1) = false := by
          rw [hk]
          simpa using hq
        rw [List.filter_cons, List.filter_cons]
        dsimp only
        rw [hlen]
        simpa using ih
      · rw [if_neg hk]
        rw [List.filter_cons, List.filter_cons]
        dsimp only
        cases hl : (k.length == 1) <;> simpa [hl] using ih

theorem topNodes_updateAt_ne (h : HMap) (q : List String) (r : FlatRow)
    (hq : q.length ≠ 1) :
    topNodes (updateAt h q r) = topNodes h := by
  unfold updateAt
  by_cases hin : (h.lookup q).isSome
  · rw [if_pos hin]
    exact topNodes_map_update h q r hq
  · rw [if_neg hin]
    unfold topNodes
    rw [List.filter_append]
    have hsing : ([(q, initMetrics r)] : HMap).filter
        (fun e => e.1.length == 1) = [] := by
      simp [hq]
    rw [hsing, List.append_nil]

theorem topsum_map_update_one {M : Type} [AddCommMonoid M]
    (f : NodeMetrics → M) (fr : FlatRow → M)
    (hacc : ∀ e r, f (accumMetrics e r) = f e + fr r)
    (h : HMap) (q : List String) (r : FlatRow) (hq : q.length = 1)
    (m : NodeMetrics) (hm : h.lookup q = some m)
    (hnd : (h.map Prod.fst).Nodup) :
    ((topNodes (h.map (fun e => if e.1 = q then (e.1, accumMetrics e.2 r)
      else e))).map f).sum = ((topNodes h).map f).sum + fr r := by
  induction h with
  | nil => cases hm
  | cons e t ih =>
      obtain ⟨k, v⟩ := e
      simp only [List.map_cons, List.nodup_cons] at hnd
      obtain ⟨hkn, hnd2⟩ := hnd
      rw [List.map_cons]
      dsimp only
      by_cases hk : k = q
      · rw [if_pos hk]
        have hb : (q == k) = true := by simp [hk]
        have hv : v = m := by
          have hm2 := hm
          simp [List.lookup, hb] at hm2
          exact hm2
        have hrest : t.map (fun e => if e.1 = q then
            (e.1, accumMetrics e.2 r) else e) = t := by
          have hptw : ∀ e ∈ t, (if e.1 = q then
              (e.1, accumMetrics e.2 r) else e) = id e := by
            intro e he
            simp only [id]
            rw [if_neg]
            intro hq2
            exact hkn (List.mem_map.mpr ⟨e, he, by rw [hq2, ← hk]⟩)
          rw [List.map_congr_left hptw, List.map_id]
        rw [hrest]
        unfold topNodes
        rw [List.filter_cons_of_pos (by simp [hk, hq]),
            List.filter_cons_of_pos (by simp [hk, hq])]
        simp only [List.map_cons, List.sum_cons, hacc, hv]
        rw [add_right_comm]
      · rw [if_neg hk]
        have hb : (q == k) = false := by
          simpa using fun hqe => hk hqe.symm
        have hm2 : t.lookup q = some m := by
          simpa [List.lookup, hb] using hm
        unfold topNodes at ih ⊢
        cases hl : (k.length == 1) with
        | true =>
            rw [List.filter_cons_of_pos (by simpa using hl),
                List.filter_cons_of_pos (by simpa using hl)]
            simp only [List.map_cons, List.sum_cons]
            rw [ih hm2 hnd2, add_assoc]
        | false =>
            rw [List.filter_cons_of_neg (by simp [hl]),
                List.filter_cons_of_neg (by simp [hl])]
            exact ih hm2 hnd2

theorem topsum_updateAt_one {M : Type} [AddCommMonoid M]
    (f : NodeMetrics → M) (fr : FlatRow → M)
    (hinit : ∀ r, f (initMetrics r) = fr r)
    (hacc : ∀ e r, f (accumMetrics e r) = f e + fr r)
    (h : HMap) (q : List String) (r : FlatRow) (hq : q.length = 1)
    (hnd : (h.map Prod.fst).Nodup) :
    ((topNodes (updateAt h q r)).map f).sum =
      ((topNodes h).map f).sum + fr r := by
  unfold updateAt
  by_cases hin : (h.lookup q).isSome
  · rw [if_pos hin]
    obtain ⟨m, hm⟩ := Option.isSome_iff_exists.mp hin
    exact topsum_map_update_one f fr hacc h q r hq m hm hnd
  · rw [if_neg hin]
    unfold topNodes
    rw [List.filter_append]
    have hsing : ([(q, initMetrics r)] : HMap).filter
        (fun e => e.1.length == 1) = [(q, initMetrics r)] := by
      simp [hq]
    rw [hsing, List.map_append, List.map_append, List.sum_append]
    simp [hinit]

theorem insertPaths_topsum {M : Type} [AddCommMonoid M]
    (f : NodeMetrics → M) (fr : FlatRow → M)
    (hinit : ∀ r, f (initMetrics r) = fr r)
    (hacc : ∀ e r, f (accumMetrics e r) = f e + fr r)
    (h : HMap) (path : List String) (r : FlatRow) :
    ∀ n : ℕ, 1 ≤ n → n ≤ path.length → (h.map Prod.fst).Nodup →
    ((topNodes (insertPaths h path r n)).map f).sum =
      ((topNodes h).map f).sum + fr r := by
  intro n
  induction n with
  | zero => omega
  | succ n ih =>
      intro _ hn hnd
      simp only [insertPaths]
      rcases Nat.eq_zero_or_pos n with rfl | hpos
      · have h1 : (path.take 1).length = 1 := by
          rw [List.length_take]
          omega
        exact topsum_updateAt_one f fr hinit hacc _ _ r h1 hnd
      · have hlen : (path.take (n + 1)).length = n + 1 := by
          rw [List.length_take]
          omega
        rw [topNodes_updateAt_ne _ _ _ (by omega)]
        exact ih hpos (by omega) hnd

theorem fetch_topsum {M : Type} [AddCommMonoid M]
    (f : NodeMetrics → M) (fr : FlatRow → M)
    (hinit : ∀ r, f (initMetrics r) = fr r)
    (hacc : ∀ e r, f (accumMetrics e r) = f e + fr r)
    (rows : List FlatRow) (dims : List String) (hd : dims ≠ []) :
    ((topNodes (fetch_hierarchy rows dims)).map f).sum =
      (rows.map fr).sum := by
  have hdl : 1 ≤ dims.length := List.length_pos.mpr hd
  induction rows using List.reverseRecOn with
  | nil => simp [fetch_hierarchy, topNodes]
  | append_singleton rows r ih =>
      rw [fetch_hierarchy_append]
      unfold insertRow
      rw [insertPaths_topsum f fr hinit hacc _ _ _ dims.length hdl
        (by rw [rowPath_length]) (fetch_keys_nodup rows dims)]
      rw [ih, List.map_append, List.sum_append]
      simp

theorem prefix_filter_eq_take_filter (rows : List FlatRow)
    (dims : List String) (p : List String) :
    rows.filter (fun r => decide (p <+: rowPath dims r)) =
      rows.filter (fun r => decide ((rowPath dims r).take p.length = p)) := by
  apply List.filter_congr
  intro r _
  apply decide_eq_decide.mpr
  constructor
  · intro hpre
    exact (List.prefix_iff_eq_take.mp hpre).symm
  · intro htk
    exact List.prefix_iff_eq_take.mpr htk.symm

/-- C1: hierarchy conservation — in the tree built by /api/dashboard/hierarchy
from any flat grouped row list and non-empty ordered dimension list, every
node's eight metric sums equal the elementwise sums of exactly those input
rows whose dimension-value path (nulls and empties replaced by "Unknown")
has the node's key path as a prefix; in particular, summing over the
top-level nodes reproduces the elementwise sum of all input rows. -/
theorem c1_hierarchy_conservation (rows : List FlatRow) (dims : List String)
    (hd : dims ≠ []) :
    (∀ (p : List String) (m : NodeMetrics),
      (fetch_hierarchy rows dims).lookup p = some m →
      m.impressions = ((rows.filter (fun r => decide (p <+: rowPath dims r))).map
          (fun r => r.impressions)).sum ∧
      m.clicks = ((rows.filter (fun r => decide (p <+: rowPath dims r))).map
          (fun r => r.clicks)).sum ∧
      m.conversions = ((rows.filter (fun r => decide (p <+: rowPath dims r))).map
          (fun r => r.conversions)).sum ∧
      m.spend = ((rows.filter (fun r => decide (p <+: rowPath dims r))).map
          (fun r => r.spend)).sum ∧
      m.revenue = ((rows.filter (fun r => decide (p <+: rowPath dims r))).map
          (fun r => r.revenue)).sum ∧
      m.m_imp = ((rows.filter (fun r => decide (p <+: rowPath dims r))).map
          (fun r => r.m_imp)).sum ∧
      m.m_clicks = ((rows.filter (fun r => decide (p <+: rowPath dims r))).map
          (fun r => r.m_clicks)).sum ∧
      m.m_conv = ((rows.filter (fun r => decide (p <+: rowPath dims r))).map
          (fun r => r.m_conv)).sum) ∧
    (((topNodes (fetch_hierarchy rows dims)).map (fun n => n.impressions)).sum =
        (rows.map (fun r => r.impressions)).sum ∧
     ((topNodes (fetch_hierarchy rows dims)).map (fun n => n.clicks)).sum =
        (rows.map (fun r => r.clicks)).sum ∧
     ((topNodes (fetch_hierarchy rows dims)).map (fun n => n.conversions)).sum =
        (rows.map (fun r => r.conversions)).sum ∧
     ((topNodes (fetch_hierarchy rows dims)).map (fun n => n.spend)).sum =
        (rows.map (fun r => r.spend)).sum ∧
     ((topNodes (fetch_hierarchy rows dims)).map (fun n => n.revenue)).sum =
        (rows.map (fun r => r.revenue)).sum ∧
     ((topNodes (fetch_hierarchy rows dims)).map (fun n => n.m_imp)).sum =
        (rows.map (fun r => r.m_imp)).sum ∧
     ((topNodes (fetch_hierarchy rows dims)).map (fun n => n.m_clicks)).sum =
        (rows.map (fun r => r.m_clicks)).sum ∧
     ((topNodes (fetch_hierarchy rows dims)).map (fun n => n.m_conv)).sum =
        (rows.map (fun r => r.m_conv)).sum) := by
  constructor
  · intro p m hm
    have hp : p ≠ [] := by
      intro hnil
      rw [hnil, fetch_hierarchy_lookup_nil] at hm
      cases hm
    rw [prefix_filter_eq_take_filter]
    rw [fetch_hierarchy_lookup dims rows p hp] at hm
    cases hfl : rows.filter
        (fun r => decide ((rowPath dims r).take p.length = p)) with
    | nil =>
        rw [hfl] at hm
        cases hm
    | cons r0 rest =>
        rw [hfl] at hm
        simp only [Option.some.injEq] at hm
        subst hm
        refine ⟨?_, ?_, ?_, ?_, ?_, ?_, ?_, ?_⟩ <;>
          exact nodeFold_sum _ _ (fun r => rfl) (fun e r => rfl) r0 rest
  · refine ⟨?_, ?_, ?_, ?_, ?_, ?_, ?_, ?_⟩ <;>
      exact fetch_topsum _ _ (fun r => rfl) (fun e r => rfl) rows dims hd

theorem c1_hierarchy_conservation_witness :
    (["platform"] : List String) ≠ [] ∧
    ((topNodes (fetch_hierarchy
        [{ columns := [("Media", some "A")], impressions := 100, clicks := 10,
           conversions := 1, spend := 50, revenue := 80, m_imp := 0,
           m_clicks := 0, m_conv := 0 }] ["platform"])).map
      (fun n => n.impressions)).sum =
      ([({ columns := [("Media", some "A")], impressions := 100, clicks := 10,
           conversions := 1, spend := 50, revenue := 80, m_imp := 0,
           m_clicks := 0, m_conv := 0 } : FlatRow)].map
        (fun r => r.impressions)).sum :=
  ⟨by decide,
   (c1_hierarchy_conservation
      [{ columns := [("Media", some "A")], impressions := 100, clicks := 10,
         conversions := 1, spend := 50, revenue := 80, m_imp := 0,
         m_clicks := 0, m_conv := 0 }] ["platform"] (by decide)).2.1⟩

theorem initMetrics_derived (r : FlatRow) :
    (initMetrics r).profit = (initMetrics r).revenue - (initMetrics r).spend ∧
    (initMetrics r).roi = (if 0 < (initMetrics r).spend then
      ((initMetrics r).revenue - (initMetrics r).spend) / (initMetrics r).spend
      else 0) ∧
    (initMetrics r).cpa =
      (initMetrics r).spend / (nz1 (initMetrics r).conversions : ℚ) ∧
    (initMetrics r).ctr =
      ((initMetrics r).clicks : ℚ) / (nz1 (initMetrics r).impressions : ℚ) ∧
    (initMetrics r).cvr =
      ((initMetrics r).conversions : ℚ) / (nz1 (initMetrics r).clicks : ℚ) :=
  ⟨rfl, rfl, rfl, rfl, rfl⟩

theorem accumMetrics_derived (e : NodeMetrics) (r : FlatRow) :
    (accumMetrics e r).profit =
      (accumMetrics e r).revenue - (accumMetrics e r).spend ∧
    (accumMetrics e r).roi = (if 0 < (accumMetrics e r).spend then
      ((accumMetrics e r).revenue - (accumMetrics e r).spend) /
        (accumMetrics e r).spend else 0) ∧
    (accumMetrics e r).cpa =
      (accumMetrics e r).spend / (nz1 (accumMetrics e r).conversions : ℚ) ∧
    (accumMetrics e r).ctr = (nz1 (accumMetrics e r).clicks : ℚ) /
      (nz1 (accumMetrics e r).impressions : ℚ) ∧
    (accumMetrics e r).cvr = (nz1 (accumMetrics e r).conversions : ℚ) /
      (nz1 (accumMetrics e r).clicks : ℚ) :=
  ⟨rfl, rfl, rfl, rfl, rfl⟩

/-- C2 (amended): in the tree returned by /api/dashboard/hierarchy, after all
rows are folded every node satisfies profit = revenue - spend,
cpa = spend / (conversions or 1), and roi = (revenue - spend) / spend when
spend > 0 and 0 otherwise (not profit / max(spend, 1)); a node built from a
single row has ctr = clicks / (impressions or 1) and
cvr = conversions / (clicks or 1), while a node that accumulated two or more
rows has its ctr / cvr numerators floored to 1 as well:
ctr = (clicks or 1) / (impressions or 1),
cvr = (conversions or 1) / (clicks or 1) over the final sums. -/
theorem c2_derived_metrics_amended (rows : List FlatRow) (dims : List String)
    (hd : dims ≠ []) (p : List String) (m : NodeMetrics)
    (hm : (fetch_hierarchy rows dims).lookup p = some m) :
    m.profit = m.revenue - m.spend ∧
    m.roi = (if 0 < m.spend then (m.revenue - m.spend) / m.spend else 0) ∧
    m.cpa = m.spend / (nz1 m.conversions : ℚ) ∧
    ((rows.filter (fun r => decide (p <+: rowPath dims r))).length = 1 →
      m.ctr = (m.clicks : ℚ) / (nz1 m.impressions : ℚ) ∧
      m.cvr = (m.conversions : ℚ) / (nz1 m.clicks : ℚ)) ∧
    (2 ≤ (rows.filter (fun r => decide (p <+: rowPath dims r))).length →
      m.ctr = (nz1 m.clicks : ℚ) / (nz1 m.impressions : ℚ) ∧
      m.cvr = (nz1 m.conversions : ℚ) / (nz1 m.clicks : ℚ)) := by
  have hp : p ≠ [] := by
    intro hnil
    rw [hnil, fetch_hierarchy_lookup_nil] at hm
    cases hm
  rw [fetch_hierarchy_lookup dims rows p hp] at hm
  cases hfl : rows.filter
      (fun r => decide ((rowPath dims r).take p.length = p)) with
  | nil =>
      rw [hfl] at hm
      cases hm
  | cons r0 rest =>
      rw [hfl] at hm
      simp only [Option.some.injEq] at hm
      subst hm
      have hflen : (rows.filter
          (fun r => decide (p <+: rowPath dims r))).length =
          rest.length + 1 := by
        rw [prefix_filter_eq_take_filter, hfl]
        simp
      rcases List.eq_nil_or_concat rest with rfl | ⟨l2, x, rfl⟩
      · have hone := initMetrics_derived r0
        refine ⟨hone.1, hone.2.1, hone.2.2.1,
          fun _ => ⟨hone.2.2.2.1, hone.2.2.2.2⟩, fun h2 => ?_⟩
        rw [hflen] at h2
        simp at h2
      · have hfoldc : nodeFold r0 (l2.concat x) =
            accumMetrics (l2.foldl accumMetrics (initMetrics r0)) x := by
          unfold nodeFold
          rw [List.concat_eq_append, List.foldl_append]
          rfl
        rw [hfoldc]
        have hmulti :=
          accumMetrics_derived (l2.foldl accumMetrics (initMetrics r0)) x
        refine ⟨hmulti.1, hmulti.2.1, hmulti.2.2.1, ?_,
          fun _ => ⟨hmulti.2.2.2.1, hmulti.2.2.2.2⟩⟩
        intro h1
        rw [hflen] at h1
        simp [List.length_concat] at h1

/-- C2 counterexample: a single grouped row with spend = 0 and revenue = 5
creates a node whose stored roi is 0 — not profit / max(spend, 1) = 5 as the
claim's reference formula requires. -/
theorem c2_counterexample :
    (fetch_hierarchy
      [{ columns := [("Media", some "A")], impressions := 0, clicks := 0,
         conversions := 0, spend := 0, revenue := 5, m_imp := 0,
         m_clicks := 0, m_conv := 0 }] ["platform"]).lookup ["A"] =
      some (initMetrics
        { columns := [("Media", some "A")], impressions := 0, clicks := 0,
          conversions := 0, spend := 0, revenue := 5, m_imp := 0,
          m_clicks := 0, m_conv := 0 }) ∧
    (initMetrics
      { columns := [("Media", some "A")], impressions := 0, clicks := 0,
        conversions := 0, spend := 0, revenue := 5, m_imp := 0,
        m_clicks := 0, m_conv := 0 } : NodeMetrics).roi = 0 ∧
    ((initMetrics
      { columns := [("Media", some "A")], impressions := 0, clicks := 0,
        conversions := 0, spend := 0, revenue := 5, m_imp := 0,
        m_clicks := 0, m_conv := 0 } : NodeMetrics).revenue -
     (initMetrics
      { columns := [("Media", some "A")], impressions := 0, clicks := 0,
        conversions := 0, spend := 0, revenue := 5, m_imp := 0,
        m_clicks := 0, m_conv := 0 } : NodeMetrics).spend) /
      max (initMetrics
        { columns := [("Media", some "A")], impressions := 0, clicks := 0,
          conversions := 0, spend := 0, revenue := 5, m_imp := 0,
          m_clicks := 0, m_conv := 0 } : NodeMetrics).spend 1 = 5 ∧
    (initMetrics
      { columns := [("Media", some "A")], impressions := 0, clicks := 0,
        conversions := 0, spend := 0, revenue := 5, m_imp := 0,
        m_clicks := 0, m_conv := 0 } : NodeMetrics).roi ≠
    ((initMetrics
      { columns := [("Media", some "A")], impressions := 0, clicks := 0,
        conversions := 0, spend := 0, revenue := 5, m_imp := 0,
        m_clicks := 0, m_conv := 0 } : NodeMetrics).revenue -
     (initMetrics
      { columns := [("Media", some "A")], impressions := 0, clicks := 0,
        conversions := 0, spend := 0, revenue := 5, m_imp := 0,
        m_clicks := 0, m_conv := 0 } : NodeMetrics).spend) /
      max (initMetrics
        { columns := [("Media", some "A")], impressions := 0, clicks := 0,
          conversions := 0, spend := 0, revenue := 5, m_imp := 0,
          m_clicks := 0, m_conv := 0 } : NodeMetrics).spend 1 := by
  refine ⟨rfl, ?_, ?_, ?_⟩ <;> simp [initMetrics]

theorem c2_derived_metrics_amended_witness :
    (["platform"] : List String) ≠ [] ∧
    (fetch_hierarchy
      [{ columns := [("Media", some "A")], impressions := 100, clicks := 10,
         conversions := 1, spend := 50, revenue := 80, m_imp := 0,
         m_clicks := 0, m_conv := 0 }] ["platform"]).lookup ["A"] =
      some (initMetrics
        { columns := [("Media", some "A")], impressions := 100, clicks := 10,
          conversions := 1, spend := 50, revenue := 80, m_imp := 0,
          m_clicks := 0, m_conv := 0 }) ∧
    (initMetrics
      { columns := [("Media", some "A")], impressions := 100, clicks := 10,
        conversions := 1, spend := 50, revenue := 80, m_imp := 0,
        m_clicks := 0, m_conv := 0 } : NodeMetrics).profit =
    (initMetrics
      { columns := [("Media", some "A")], impressions := 100, clicks := 10,
        conversions := 1, spend := 50, revenue := 80, m_imp := 0,
        m_clicks := 0, m_conv := 0 } : NodeMetrics).revenue -
    (initMetrics
      { columns := [("Media", some "A")], impressions := 100, clicks := 10,
        conversions := 1, spend := 50, revenue := 80, m_imp := 0,
        m_clicks := 0, m_conv := 0 } : NodeMetrics).spend :=
  ⟨by decide, rfl,
   (c2_derived_metrics_amended
      [{ columns := [("Media", some "A")], impressions := 100, clicks := 10,
         conversions := 1, spend := 50, revenue := 80, m_imp := 0,
         m_clicks := 0, m_conv := 0 }] ["platform"] (by decide) ["A"]
      (initMetrics
        { columns := [("Media", some "A")], impressions := 100, clicks := 10,
          conversions := 1, spend := 50, revenue := 80, m_imp := 0,
          m_clicks := 0, m_conv := 0 }) rfl).1⟩

end Dashboard

end Theorems

end EFsafari
